import Mathlib

/-!
Verification of the log-analyzer backend (Python sources under
`backend/app`) against its natural-language specification.

The Python code is shallowly embedded: raw file content is a `List Char`
(the files under test are ASCII, so Python byte offsets coincide with
character counts), JSON values produced by `json.loads` are association
lists (`JObj`), and the standard-library calls `json.loads` and
`datetime.fromisoformat` — which are not part of this repository — are
uninterpreted function parameters.  Everything else is translated
line-by-line from the sources named in each definition's doc comment.
-/

set_option maxRecDepth 100000

namespace LogAnalyzer

/-! ### Python string primitives used by the parser -/

/-- Character class `[a-f0-9\-]` from the correlation-id regexes in
`app/core/log_parser.py`. -/
def isCidChar (c : Char) : Bool :=
  (('a' ≤ c) && (c ≤ 'f')) || (('0' ≤ c) && (c ≤ '9')) || (c == '-')

/-- Python `content.split('\n')`: split at every newline, keeping empty
pieces (`"".split('\n') == ['']`). -/
def splitNl : List Char → List (List Char)
  | [] => [[]]
  | c :: rest =>
    if c = '\n' then [] :: splitNl rest
    else
      match splitNl rest with
      | l :: ls => (c :: l) :: ls
      | [] => [[c]]

/-- Whitespace stripped by Python `str.strip()` (ASCII portion). -/
def isPySpace (c : Char) : Bool :=
  (c == ' ') || (c == '\t') || (c == '\n') || (c == '\r') ||
  (c == '\x0b') || (c == '\x0c')

/-- Python `raw_log.strip()`. -/
def pyStrip (cs : List Char) : List Char :=
  ((cs.dropWhile isPySpace).reverse.dropWhile isPySpace).reverse

/-- Ten asterisks, the sentinel marker used by the delimiter checks. -/
def stars10 : List Char := List.replicate 10 '*'

/-- Python `'**********' in line`: some position starts a run of ten
asterisks. -/
def hasStars10 : List Char → Bool
  | [] => false
  | c :: rest =>
    if (c :: rest).take 10 = stars10 then true else hasStars10 rest

/-- One attempt of the regex `\*+([a-f0-9\-]+)\*+` anchored at the head of
`cs`: a nonempty run of `*`, then a nonempty run of cid characters, then at
least one `*`.  (Backtracking cannot help this pattern because the `*` and
cid character classes are disjoint.) -/
def matchCidAt (cs : List Char) : Option (List Char) :=
  let stars := cs.takeWhile (· == '*')
  if stars.isEmpty then none
  else
    let rest := cs.dropWhile (· == '*')
    let cid := rest.takeWhile isCidChar
    if cid.isEmpty then none
    else
      match rest.dropWhile isCidChar with
      | '*' :: _ => some cid
      | _ => none

/-- The `LogParser.extract_correlation_id` (`app/core/log_parser.py:12-19`):
`re.search(r'\*+([a-f0-9\-]+)\*+', line)`, returning the first capture. -/
def extract_correlation_id : List Char → Option (List Char)
  | [] => none
  | c :: rest =>
    match matchCidAt (c :: rest) with
    | some cid => some cid
    | none => extract_correlation_id rest

/-- One attempt of the regex `\*{10}[a-f0-9\-]+\*{10}` anchored at the head
of `cs`; on success returns the remainder after the match. -/
def matchDelim10 (cs : List Char) : Option (List Char) :=
  if cs.take 10 = stars10 then
    let r1 := cs.drop 10
    let cid := r1.takeWhile isCidChar
    if cid.isEmpty then none
    else
      let r2 := r1.dropWhile isCidChar
      if r2.take 10 = stars10 then some (r2.drop 10) else none
  else none

/-- Fuelled scan counting the non-overlapping, left-to-right matches of
`\*{10}[a-f0-9\-]+\*{10}` (the semantics of `re.findall`).  Each step
consumes at least one character, so fuel `cs.length` is always enough. -/
def countDelimsAux : Nat → List Char → Nat
  | 0, _ => 0
  | _ + 1, [] => 0
  | fuel + 1, c :: rest =>
    match matchDelim10 (c :: rest) with
    | some rest2 => 1 + countDelimsAux fuel rest2
    | none => countDelimsAux fuel rest

/-- Number of `re.findall(r'\*{10}[a-f0-9\-]+\*{10}', content)` matches. -/
def countDelims (cs : List Char) : Nat :=
  countDelimsAux cs.length cs

/-- The `LogParser.is_log_complete` (`app/core/log_parser.py:74-78`): at least
two `\*{10}cid\*{10}` delimiters anywhere in the content — the correlation
ids of the two delimiters are not compared, and the enclosed text is not
required to be valid JSON. -/
def is_log_complete (content : List Char) : Bool :=
  decide (2 ≤ countDelims content)

/-! ### JSON objects

`json.loads` is Python-standard-library code, not repository code, so it is
an uninterpreted parameter `jparse : List Char → Option JObj` throughout
(`none` models `json.JSONDecodeError`).  Concrete theorems instantiate it
with a finite function that agrees with `json.loads` on the strings it is
applied to. -/

/-- A JSON scalar as far as the repository inspects payloads. -/
inductive JVal where
  | jstr : String → JVal
  | jnum : Int → JVal
  | jnull : JVal
  deriving DecidableEq, Repr

/-- A Python dict in insertion order. -/
abbrev JObj := List (String × JVal)

/-- Python `d.get(k)` (`None` when the key is absent). -/
def jget (o : JObj) (k : String) : Option JVal :=
  (o.find? (fun p => p.1 == k)).map (fun p => p.2)

/-- Python truthiness of `d.get(k)`: `None`, `''`, and `0` are falsy. -/
def jtruthy : Option JVal → Bool
  | none => false
  | some JVal.jnull => false
  | some (JVal.jstr s) => !(s.isEmpty)
  | some (JVal.jnum n) => n != 0

/-- Python `d[k] = v`: replace in place if the key exists, else append. -/
def jset (o : JObj) (k : String) (v : JVal) : JObj :=
  if (o.find? (fun p => p.1 == k)).isSome then
    o.map (fun p => if p.1 = k then (k, v) else p)
  else o ++ [(k, v)]

def kCorrelationId : String := "correlationId"
def kTimestamp : String := "timestamp"
def kLogLevel : String := "logLevel"
def kApiName : String := "apiName"
def kServiceName : String := "serviceName"
def kSessionId : String := "sessionId"
def kThread : String := "thread"
def kLogger : String := "logger"
def kType : String := "type"
def kDurationMs : String := "durationMs"

/-- A key is present with a string value (pydantic `str` fields reject
`None` and non-strings in v2 smart mode). -/
def hasStrField (o : JObj) (k : String) : Bool :=
  match jget o k with
  | some (JVal.jstr _) => true
  | _ => false

/-- The `LogEntry(**log_data)` validation from `app/models/log_entry.py`:
the nine required fields must be present as strings, and `durationMs`, when
present, must be an integer or null.  (Other optional fields are payload
data the claims never touch.) -/
def validLogEntry (o : JObj) : Bool :=
  hasStrField o kTimestamp && hasStrField o kLogLevel &&
  hasStrField o kApiName && hasStrField o kServiceName &&
  hasStrField o kThread && hasStrField o kLogger &&
  hasStrField o kSessionId && hasStrField o kCorrelationId &&
  hasStrField o kType &&
  (match jget o kDurationMs with
   | some (JVal.jstr _) => false
   | _ => true)

/-! ### `LogParser.parse_log_entry` -/

/-- The JSON-line collection loop of `LogParser.parse_log_entry`
(`app/core/log_parser.py:36-48`): skip until the first line containing ten
asterisks, collect lines until the next such line. -/
def collectJson : List (List Char) → Bool → List (List Char)
  | [], _ => []
  | l :: rest, inJson =>
    if hasStars10 l then
      if inJson then []
      else collectJson rest true
    else if inJson then l :: collectJson rest inJson
    else collectJson rest inJson

/-- The `LogParser.parse_log_entry` (`app/core/log_parser.py:21-72`).  Note the
handling of the correlation id on lines 59-60: the marker cid is written
into the object ONLY when the JSON body's `correlationId` is missing or
falsy; a truthy body value is kept even when it differs from the marker. -/
def parse_log_entry (jparse : List Char → Option JObj) (raw : List Char) :
    Option JObj :=
  let lines := splitNl (pyStrip raw)
  match lines with
  | [] => none
  | first :: _ =>
    match extract_correlation_id first with
    | none => none
    | some cid =>
      let jsonLines := collectJson lines false
      if jsonLines.isEmpty then none
      else
        match jparse (List.intercalate [ '\n' ] jsonLines) with
        | none => none
        | some obj =>
          let obj2 :=
            if jtruthy (jget obj kCorrelationId) then obj
            else jset obj kCorrelationId (JVal.jstr (String.mk cid))
          if validLogEntry obj2 then some obj2 else none

/-! ### `FileWatcher`: splitting, incomplete buffering, positions -/

/-- A line is treated as a frame delimiter by
`FileWatcher._split_log_entries` (`app/core/file_watcher.py:151`) iff it
contains ten consecutive asterisks AND `extract_correlation_id` finds a cid
somewhere in it.  The cid's value is never compared to anything. -/
def isDelimLine (l : List Char) : Bool :=
  hasStars10 l && (extract_correlation_id l).isSome

/-- The line loop of `FileWatcher._split_log_entries`
(`app/core/file_watcher.py:143-169`), producing groups of lines.  Any
delimiter line closes a currently open entry, regardless of its cid. -/
def splitEntriesAux :
    List (List Char) → List (List Char) → Bool → List (List (List Char))
  | [], current, _ => if current.isEmpty then [] else [current]
  | l :: rest, current, inEntry =>
    if isDelimLine l then
      if inEntry && !current.isEmpty then
        (current ++ [l]) :: splitEntriesAux rest [] false
      else splitEntriesAux rest [l] true
    else if inEntry then splitEntriesAux rest (current ++ [l]) inEntry
    else splitEntriesAux rest current inEntry

/-- The `FileWatcher._split_log_entries`: split, then re-join each group with
newlines. -/
def split_log_entries (content : List Char) : List (List Char) :=
  (splitEntriesAux (splitNl content) [] false).map (List.intercalate [ '\n' ])

/-- Records emitted for one parsed entry inside
`FileWatcher._parse_and_cache_logs` (`app/core/file_watcher.py:128-138`): a
record reaches the cache and the broadcaster iff `parse_log_entry` returned
a truthy dict whose `correlationId` is truthy. -/
def emitOf (jparse : List Char → Option JObj) (entry : List Char) :
    List JObj :=
  match parse_log_entry jparse entry with
  | none => []
  | some obj =>
    if !obj.isEmpty && jtruthy (jget obj kCorrelationId) then [obj] else []

/-- The entry loop of `FileWatcher._parse_and_cache_logs`
(`app/core/file_watcher.py:120-138`): only the LAST entry is tested with
`is_log_complete`; when incomplete it is stored as the new incomplete
buffer instead of being parsed. -/
def processEntries (jparse : List Char → Option JObj) :
    List (List Char) → List JObj × Option (List Char)
  | [] => ([], none)
  | [e] =>
    if !(is_log_complete e) then ([], some e)
    else (emitOf jparse e, none)
  | e :: e2 :: rest =>
    let tailRes := processEntries jparse (e2 :: rest)
    (emitOf jparse e ++ tailRes.1, tailRes.2)

/-- Per-file tailer state: the stored read position
(`FileWatcher.file_positions`) and the incomplete-entry carry buffer
(`FileWatcher.incomplete_logs`). -/
structure WState where
  pos : Nat
  incomplete : Option (List Char)
  deriving DecidableEq, Repr

/-- The `FileWatcher._parse_and_cache_logs` (`app/core/file_watcher.py:109-141`)
on one file: prepend and clear the incomplete buffer, split, process. -/
def parse_and_cache_logs (jparse : List Char → Option JObj)
    (incomplete : Option (List Char)) (content : List Char) :
    List JObj × Option (List Char) :=
  let combined := incomplete.getD [] ++ content
  processEntries jparse (split_log_entries combined)

/-- The `FileWatcher.process_file` (`app/core/file_watcher.py:85-107`) for one
file whose full on-disk content is `content`: read from the stored
position to end of file; if nothing was read, return unchanged (this is the
ONLY treatment a shrunken file gets — there is no rotation check);
otherwise parse-and-cache and then set the position to `f.tell()`, the end
of the file — not to a consumed-bytes boundary. -/
def process_file (jparse : List Char → Option JObj) (content : List Char)
    (st : WState) : WState × List JObj :=
  let newContent := content.drop st.pos
  if newContent.isEmpty then (st, [])
  else
    let res := parse_and_cache_logs jparse st.incomplete newContent
    ({ pos := content.length, incomplete := res.2 }, res.1)

/-! ### Python string comparison

Python compares strings lexicographically by code point.  (Lean/Mathlib's
`String` order is the same relation, but its `Decidable` instance is
implemented with well-founded recursion and does not reduce in the
kernel, so the comparison is modelled structurally.) -/

/-- Python `a < b` on single characters (code points). -/
def pyCharLt (a b : Char) : Bool := decide (a.toNat < b.toNat)

/-- Python `a < b` on character lists: lexicographic by code point. -/
def pyStrLtL : List Char → List Char → Bool
  | [], [] => false
  | [], _ :: _ => true
  | _ :: _, [] => false
  | a :: as, b :: bs =>
    if pyCharLt a b then true
    else if pyCharLt b a then false
    else pyStrLtL as bs

/-- Python `a < b` on strings. -/
def pyStrLt (a b : String) : Bool := pyStrLtL a.data b.data

/-! ### `QueryEngine.get_logs`: merge, deduplicate, sort, paginate -/

/-- The projection of a result dict that `QueryEngine.get_logs` inspects
for deduplication and sorting: both tiers always fill `correlationId` and
`timestamp` (a string; database rows arrive via `timestamp.isoformat()`). -/
structure QRec where
  correlationId : String
  timestamp : String
  deriving DecidableEq, Repr

/-- The deduplication key of `QueryEngine._deduplicate_logs`
(`app/core/query_engine.py:288`): the f-string
`f"{log.get('correlationId')}_{log.get('timestamp')}"` — correlation id AND
timestamp, not the correlation id alone. -/
def dedupKey (r : QRec) : String :=
  r.correlationId ++ "_" ++ r.timestamp

/-- The loop of `QueryEngine._deduplicate_logs`
(`app/core/query_engine.py:282-293`): keep the first occurrence of each
key, remember seen keys. -/
def dedupAux : List QRec → List String → List QRec
  | [], _ => []
  | r :: rest, seen =>
    if dedupKey r ∈ seen then dedupAux rest seen
    else r :: dedupAux rest (dedupKey r :: seen)

/-- The `QueryEngine._deduplicate_logs`. -/
def deduplicate_logs (logs : List QRec) : List QRec :=
  dedupAux logs []

/-- Stable insertion of `r` into a descending-by-key list: `r` goes before
the first element whose key is not greater than `r`'s, so equal keys keep
their original relative order. -/
def insDesc (key : QRec → String) (r : QRec) : List QRec → List QRec
  | [] => [r]
  | x :: xs =>
    if pyStrLt (key r) (key x) then x :: insDesc key r xs
    else r :: x :: xs

/-- Python `list.sort(key=..., reverse=True)`: a stable descending sort
(ties stay in list order; `reverse=True` does not reverse ties). -/
def pySortDesc (key : QRec → String) (l : List QRec) : List QRec :=
  l.foldr (insDesc key) []

/-- The merge pipeline of `QueryEngine.get_logs`
(`app/core/query_engine.py:42-71`) on the cache-miss path, with the two
tier results as inputs (the hot/file tier is extended into `all_logs`
first, then the database tier): deduplicate, sort by the `timestamp` string
descending, count, then slice `[(page-1)*pageSize, page*pageSize)`. -/
def get_logs (fileLogs dbLogs : List QRec) (page pageSize : Nat) :
    List QRec × Nat :=
  let allLogs := deduplicate_logs (fileLogs ++ dbLogs)
  let sorted := pySortDesc (fun r => r.timestamp) allLogs
  let total := sorted.length
  let start := (page - 1) * pageSize
  ((sorted.drop start).take pageSize, total)

/-! Spec-side merge, for comparison with `get_logs` (refinement check). -/

/-- Modelled from the spec: deduplication "keyed by `correlation_id`" alone
with the hot entry preferred (hot entries come first in the input). -/
def specDedupAux : List QRec → List String → List QRec
  | [], _ => []
  | r :: rest, seen =>
    if r.correlationId ∈ seen then specDedupAux rest seen
    else r :: specDedupAux rest (r.correlationId :: seen)

/-- Modelled from the spec: the spec's merge order "timestamp descending,
`correlation_id` ascending for stability". -/
def specLeDesc (a b : QRec) : Bool :=
  pyStrLt b.timestamp a.timestamp ||
  (a.timestamp == b.timestamp &&
    !(pyStrLt b.correlationId a.correlationId))

/-- Insertion into a list sorted by `specLeDesc`. -/
def specIns (r : QRec) : List QRec → List QRec
  | [] => [r]
  | x :: xs => if specLeDesc r x then r :: x :: xs else x :: specIns r xs

/-- Modelled from the spec: sort by (timestamp desc, correlation_id asc). -/
def specSort (l : List QRec) : List QRec :=
  l.foldr specIns []

/-- Modelled from the spec (§4.8 Merge): union deduplicated by
`correlation_id` with hot preferred, sorted by (timestamp desc, cid asc),
`total` the deduplicated count, then offset/limit pagination. -/
def specGetLogs (fileLogs dbLogs : List QRec) (page pageSize : Nat) :
    List QRec × Nat :=
  let merged := specDedupAux (fileLogs ++ dbLogs) []
  let sorted := specSort merged
  let start := (page - 1) * pageSize
  ((sorted.drop start).take pageSize, merged.length)

/-! ### Filters on file-tier entries -/

/-- Modelled from the spec: the records returned by the file tier's
`log_parser.parse_file` (called from `QueryEngine._query_files` but absent
from the sources) — the spec's Record with the attributes the filter and
analytics code reads, including the optional tri-valued `has_error` and
the optional `duration_ms`. -/
structure FileRec where
  correlationId : String
  timestamp : String
  apiName : String
  serviceName : String
  sessionId : String
  logLevel : String
  hasError : Option String
  durationMs : Option Int
  deriving DecidableEq, Repr

/-- The `LogFilter` pydantic model (`app/models/query_models.py:5-15`).
Datetimes are modelled as integers (UTC instants). -/
structure LogFilter where
  correlationId : Option String := none
  apiName : Option String := none
  serviceName : Option String := none
  sessionId : Option String := none
  hasError : Option String := none
  logLevel : Option String := none
  startDate : Option Int := none
  endDate : Option Int := none
  page : Nat := 1
  pageSize : Nat := 50
  deriving DecidableEq, Repr

/-- Python truthiness of an `Optional[str]` field: `None` and `''` are
falsy. -/
def pyTruthyOpt : Option String → Bool
  | none => false
  | some s => !(s.isEmpty)

/-- Fuelled replacement of every occurrence of `"+02:00"` by the empty
string (Python `timestamp_str.replace('+02:00', '')`); fuel `cs.length`
always suffices. -/
def stripP0200Aux : Nat → List Char → List Char
  | 0, cs => cs
  | _ + 1, [] => []
  | fuel + 1, c :: rest =>
    if (c :: rest).take 6 = [ '+', '0', '2', ':', '0', '0' ] then
      stripP0200Aux fuel ((c :: rest).drop 6)
    else c :: stripP0200Aux fuel rest

/-- Python `s.replace('+02:00', '')`. -/
def stripPlus0200 (cs : List Char) : List Char :=
  stripP0200Aux cs.length cs

/-- The `QueryEngine._parse_timestamp` (`app/core/query_engine.py:320-325`):
strip `'+02:00'`, try `datetime.fromisoformat` (the uninterpreted
`fromiso`), and on any failure fall back to `datetime.now()` (`now`). -/
def parse_timestamp (fromiso : List Char → Option Int) (now : Int)
    (s : String) : Int :=
  match fromiso (stripPlus0200 s.data) with
  | some t => t
  | none => now

/-- One guarded list comprehension
`filtered = [e for e in filtered if p(e)] if cond else filtered`. -/
def filterStage {α : Type} (cond : Bool) (p : α → Bool) (l : List α) :
    List α :=
  if cond then l.filter p else l

/-- One date-guarded comprehension `if filter.xDate: filtered = [...]`
(datetime truthiness is always true, so the guard is presence). -/
def filterStageOpt {α : Type} (o : Option Int) (p : Int → α → Bool)
    (l : List α) : List α :=
  match o with
  | some d => l.filter (p d)
  | none => l

/-- The `QueryEngine._apply_filter_to_entries`
(`app/core/query_engine.py:190-215`): successive list comprehensions for
`correlationId`, `apiName`, `serviceName`, `sessionId`, `hasError`,
`startDate`, `endDate` — in that order.  `filter.logLevel` is never
consulted. -/
def apply_filter_to_entries (fromiso : List Char → Option Int) (now : Int)
    (f : LogFilter) (entries : List FileRec) : List FileRec :=
  let l1 := filterStage (pyTruthyOpt f.correlationId)
    (fun e => some e.correlationId == f.correlationId) entries
  let l2 := filterStage (pyTruthyOpt f.apiName)
    (fun e => some e.apiName == f.apiName) l1
  let l3 := filterStage (pyTruthyOpt f.serviceName)
    (fun e => some e.serviceName == f.serviceName) l2
  let l4 := filterStage (pyTruthyOpt f.sessionId)
    (fun e => some e.sessionId == f.sessionId) l3
  let l5 := filterStage (pyTruthyOpt f.hasError)
    (fun e => e.hasError == f.hasError) l4
  let l6 := filterStageOpt f.startDate
    (fun d e => decide (d ≤ parse_timestamp fromiso now e.timestamp)) l5
  filterStageOpt f.endDate
    (fun d e => decide (parse_timestamp fromiso now e.timestamp ≤ d)) l6

/-! ### `CacheManager` -/

/-- A cached log dict as `CacheManager.search_logs` reads it: `dict.get`
yields `None` for absent keys, so every attribute is optional. -/
structure CRec where
  apiName : Option String := none
  serviceName : Option String := none
  logLevel : Option String := none
  sessionId : Option String := none
  timestamp : Option String := none
  deriving DecidableEq, Repr

/-- The match predicate inside `CacheManager.search_logs`
(`app/core/cache_manager.py:74-88`): each truthy argument must equal the
record's attribute (`None != value` rejects records missing the key). -/
def searchMatch (apiName serviceName logLevel sessionId : Option String)
    (r : CRec) : Bool :=
  (!(pyTruthyOpt apiName) || r.apiName == apiName) &&
  (!(pyTruthyOpt serviceName) || r.serviceName == serviceName) &&
  (!(pyTruthyOpt logLevel) || r.logLevel == logLevel) &&
  (!(pyTruthyOpt sessionId) || r.sessionId == sessionId)

/-- The collection loop of `CacheManager.search_logs`: append on match and
break as soon as the accumulator reaches `limit` (the length check runs
after every iteration, matched or not). -/
def searchCollect (p : CRec → Bool) (limit : Nat) :
    List CRec → List CRec → List CRec
  | [], acc => acc
  | r :: rest, acc =>
    let acc2 := if p r then acc ++ [r] else acc
    if limit ≤ acc2.length then acc2 else searchCollect p limit rest acc2

/-- Stable insertion for `CRec` descending by a string key. -/
def insDescC (key : CRec → String) (r : CRec) : List CRec → List CRec
  | [] => [r]
  | x :: xs =>
    if pyStrLt (key r) (key x) then x :: insDescC key r xs
    else r :: x :: xs

/-- Python `list.sort(key=..., reverse=True)` on cached records. -/
def pySortDescC (key : CRec → String) (l : List CRec) : List CRec :=
  l.foldr (insDescC key) []

/-- The `CacheManager.search_logs` (`app/core/cache_manager.py:63-102`): filter
with early break, sort by `get('timestamp','')` descending, truncate to
`limit`. -/
def search_logs (apiName serviceName logLevel sessionId : Option String)
    (limit : Nat) (allLogs : List CRec) : List CRec :=
  let filtered :=
    searchCollect (searchMatch apiName serviceName logLevel sessionId)
      limit allLogs []
  (pySortDescC (fun r => r.timestamp.getD ("")) filtered).take limit

/-- The `CacheManager.set_log` (`app/core/cache_manager.py:22-32`): Redis
`SETEX log:<cid> <ttl> <json>` — a keyed overwrite, modelled on an
association list in insertion order. -/
def set_log (cache : List (String × JObj)) (cid : String) (v : JObj) :
    List (String × JObj) :=
  if (cache.find? (fun p => p.1 == cid)).isSome then
    cache.map (fun p => if p.1 = cid then (cid, v) else p)
  else cache ++ [(cid, v)]

/-! ### `LogRepository.insert_log` (cold store) -/

/-- A row of `log_entries` (`app/database/connection.py:24-38`): the
integer surrogate `id` is the only primary key; `correlation_id` is merely
indexed, with NO unique constraint. -/
structure DbRow where
  correlation_id : Option String
  timestamp : Int
  log_level : Option String
  api_name : Option String
  service_name : Option String
  session_id : Option String
  log_data : JObj
  error_message : Option String
  error_trace : Option String
  duration_ms : Option Int
  deriving DecidableEq, Repr

/-- Fuelled replacement of every `'Z'` by `"+00:00"` (Python
`timestamp_str.replace('Z', '+00:00')`). -/
def replaceZ : List Char → List Char
  | [] => []
  | c :: rest =>
    if c = 'Z' then '+' :: '0' :: '0' :: ':' :: '0' :: '0' :: replaceZ rest
    else c :: replaceZ rest

/-- String field read via `dict.get` for the column mapping in
`insert_log`. -/
def jgetStr (o : JObj) (k : String) : Option String :=
  match jget o k with
  | some (JVal.jstr s) => some s
  | _ => none

/-- Integer field read via `dict.get`. -/
def jgetNum (o : JObj) (k : String) : Option Int :=
  match jget o k with
  | some (JVal.jnum n) => some n
  | _ => none

def kErrorMessage : String := "errorMessage"
def kErrorTrace : String := "errorTrace"

/-- The `LogRepository.insert_log` (`app/database/repositories.py:185-222`): a
plain `INSERT` (`db.add` + `commit`) appending one new row; there is no
`ON CONFLICT`/upsert and no key on `correlation_id`.  The timestamp is
`fromisoformat` after the `Z` replacement, with `datetime.now()` (`now`)
as fallback when the string is absent, falsy, or unparseable. -/
def insert_log (fromiso : List Char → Option Int) (now : Int)
    (store : List DbRow) (logData : JObj) : List DbRow :=
  let ts :=
    match jgetStr logData kTimestamp with
    | some s =>
      if s.isEmpty then now
      else (fromiso (replaceZ s.data)).getD now
    | none => now
  store ++ [{ correlation_id := jgetStr logData kCorrelationId
              timestamp := ts
              log_level := jgetStr logData kLogLevel
              api_name := jgetStr logData kApiName
              service_name := jgetStr logData kServiceName
              session_id := jgetStr logData kSessionId
              log_data := logData
              error_message := jgetStr logData kErrorMessage
              error_trace := jgetStr logData kErrorTrace
              duration_ms := jgetNum logData kDurationMs }]

/-- Rows in the cold store carrying a given correlation id. -/
def countCid (store : List DbRow) (c : String) : Nat :=
  (store.filter (fun r => r.correlation_id == some c)).length

/-! ### Python `round(x, 2)` -/

/-- Python `round` to an integer: nearest, ties to even (banker's
rounding), idealized over exact rationals. -/
def pyRoundInt (q : ℚ) : ℤ :=
  let f := Rat.floor q
  if q - f < 1 / 2 then f
  else if (1 : ℚ) / 2 < q - f then f + 1
  else if f % 2 = 0 then f else f + 1

/-- Python `round(x, 2)`. -/
def pyRound2 (q : ℚ) : ℚ :=
  ((pyRoundInt (q * 100) : ℤ) : ℚ) / 100

/-- The `Rat.floor` agrees with the floor of the `FloorRing` instance (which
Mathlib builds from it). -/
theorem ratFloor_eq_intFloor (q : ℚ) : Rat.floor q = ⌊q⌋ := rfl

/-- Python `round` fixes integers. -/
theorem pyRoundInt_int (m : ℤ) : pyRoundInt (m : ℚ) = m := by
  unfold pyRoundInt
  rw [ratFloor_eq_intFloor, Int.floor_intCast]
  norm_num

/-- The `round(x, 2)` fixes integers. -/
theorem pyRound2_int (m : ℤ) : pyRound2 (m : ℚ) = m := by
  unfold pyRound2
  have h : ((m : ℚ)) * 100 = ((m * 100 : ℤ) : ℚ) := by push_cast; ring
  rw [h, pyRoundInt_int]
  push_cast
  field_simp

/-- Evaluation helper: `round(q, 2) = m` whenever `q` equals the integer
`m`. -/
theorem pyRound2_eq_int {q : ℚ} {m : ℤ} (h : q = (m : ℚ)) :
    pyRound2 q = (m : ℚ) := by
  rw [h, pyRound2_int]

/-- The `round(0, 2) = 0`. -/
theorem pyRound2_zero : pyRound2 0 = 0 := by simpa using pyRound2_int 0

/-! ### `WebSocketManager` (live broadcaster) -/

/-- The `log_data.get('logLevel')` read used by the stats counters; a
non-string value never equals `'ERROR'`. -/
def getLevel (o : JObj) : Option String :=
  jgetStr o kLogLevel

/-- The broadcaster's state: `active_connections` (connection ids) and the
`stats_cache` dict.  `success_rate` is `none` before the first update
because the initial dict (`app/api/websocket.py:14-19`) has no such key. -/
structure WSState where
  connections : List Nat
  total : Nat
  success : Nat
  error : Nat
  successRate : Option ℚ
  deriving DecidableEq, Repr

/-- The broadcaster's initial state (`app/api/websocket.py:12-19`). -/
def initWS (conns : List Nat) : WSState :=
  { connections := conns, total := 0, success := 0, error := 0,
    successRate := none }

/-- The `WebSocketManager._update_stats` (`app/api/websocket.py:106-118`):
increment `total_logs`; increment `error_logs` exactly when
`log_data.get('logLevel') == 'ERROR'`, else `success_logs`; then store
`round((success / total * 100) if total > 0 else 0, 2)`. -/
def update_stats (level : Option String) (st : WSState) : WSState :=
  let total := st.total + 1
  let success :=
    if level == some ("ERROR") then st.success else st.success + 1
  let error :=
    if level == some ("ERROR") then st.error + 1 else st.error
  { st with
    total := total
    success := success
    error := error
    successRate :=
      some (pyRound2 (if 0 < total then (success : ℚ) / total * 100 else 0)) }

/-- The `WebSocketManager.broadcast_log` (`app/api/websocket.py:33-64`): update
the stats, then send the record to EVERY active connection — there is no
per-subscriber predicate anywhere; connections whose send fails (`sendOk`
false) are removed.  Returns the new state and the list of connections the
record was delivered to. -/
def broadcast_log (sendOk : Nat → Bool) (st : WSState) (rec : JObj) :
    WSState × List Nat :=
  let st1 := update_stats (getLevel rec) st
  let delivered := st1.connections.filter sendOk
  ({ st1 with connections := delivered }, delivered)

/-- A sequence of `broadcast_log` calls from a given state. -/
def runBroadcasts (sendOk : Nat → Bool) (recs : List JObj) (st : WSState) :
    WSState :=
  recs.foldl (fun s r => (broadcast_log sendOk s r).1) st

/-- The stats recomputation of `WebSocketManager.broadcast_stats`
(`app/api/websocket.py:72-85`): totals over the cached logs, with
`success_rate = round((success / total * 100) if total > 0 else 0, 2)`. -/
def broadcast_stats_calc (cacheLogs : List JObj) : Nat × Nat × Nat × ℚ :=
  let total := cacheLogs.length
  let errors := (cacheLogs.filter (fun l => getLevel l == some ("ERROR"))).length
  let success := total - errors
  (total, success, errors,
    pyRound2 (if 0 < total then (success : ℚ) / total * 100 else 0))

/-! ### Analytics -/

/-- The analytics dict shape shared by
`QueryEngine._get_file_analytics` and `QueryEngine._merge_analytics`
(`app/core/query_engine.py:250-273`). -/
structure Analytics where
  totalLogs : Nat
  errorCount : Nat
  successCount : Nat
  avgDurationMs : ℚ
  apiBreakdown : List (String × Nat)
  serviceBreakdown : List (String × Nat)
  errorBreakdown : List (String × Nat)
  deriving DecidableEq, Repr

/-- The `result[key] = result.get(key, 0) + value` on an insertion-ordered
dict. -/
def dictAdd (d : List (String × Nat)) (k : String) (v : Nat) :
    List (String × Nat) :=
  match d.find? (fun p => p.1 == k) with
  | some kv => d.map (fun p => if p.1 = k then (k, kv.2 + v) else p)
  | none => d ++ [(k, v)]

/-- The `QueryEngine._merge_dicts` (`app/core/query_engine.py:275-280`). -/
def merge_dicts (d1 d2 : List (String × Nat)) : List (String × Nat) :=
  d2.foldl (fun acc kv => dictAdd acc kv.1 kv.2) d1

/-- Per-key counting dict built by the breakdown loops
(`breakdown[k] = breakdown.get(k, 0) + 1`). -/
def countByKey (keys : List String) : List (String × Nat) :=
  keys.foldl (fun acc k => dictAdd acc k 1) []

/-- The `QueryEngine._get_file_analytics` (`app/core/query_engine.py:217-258`)
as a function of the parsed file entries: errors are entries with
`hasError == "True"`; the duration average ranges over entries with
non-null `durationMs` only and falls back to 0 when there are none;
`round(avg, 2)` is applied. -/
def get_file_analytics (entries : List FileRec) : Analytics :=
  let total := entries.length
  let errors := (entries.filter (fun e => e.hasError == some ("True"))).length
  let durations := entries.filterMap (fun e => e.durationMs)
  let avg : ℚ :=
    if durations.isEmpty then 0
    else ((durations.foldl (· + ·) 0 : ℤ) : ℚ) / durations.length
  { totalLogs := total
    errorCount := errors
    successCount := total - errors
    avgDurationMs := pyRound2 avg
    apiBreakdown := countByKey (entries.map (fun e => e.apiName))
    serviceBreakdown := countByKey (entries.map (fun e => e.serviceName))
    errorBreakdown :=
      countByKey ((entries.filter (fun e => e.hasError == some ("True"))).map
        (fun e => e.apiName)) }

/-- The `QueryEngine._merge_analytics` (`app/core/query_engine.py:260-273`):
counts are added, but the merged duration average is
`round((db_avg + file_avg) / 2, 2)` — the unweighted mean of the two tier
averages, NOT an average over the merged records. -/
def merge_analytics (dbA fileA : Analytics) : Analytics :=
  { totalLogs := dbA.totalLogs + fileA.totalLogs
    errorCount := dbA.errorCount + fileA.errorCount
    successCount := dbA.successCount + fileA.successCount
    avgDurationMs := pyRound2 ((dbA.avgDurationMs + fileA.avgDurationMs) / 2)
    apiBreakdown := merge_dicts dbA.apiBreakdown fileA.apiBreakdown
    serviceBreakdown := merge_dicts dbA.serviceBreakdown fileA.serviceBreakdown
    errorBreakdown := merge_dicts dbA.errorBreakdown fileA.errorBreakdown }

/-! ## Shared concrete data for witnesses and counterexamples

A complete consistent frame (`frameA`), plus a frame whose JSON body
carries a correlation id different from the one in its markers
(`rawMismatch`).  The `jparse` instances below are finite functions that
agree with `json.loads` on the single document each is applied to. -/

/-- The sentinel line `**********aa**********`. -/
def markerA : List Char := "**********aa**********".data

/-- The sentinel line `**********b2**********`. -/
def markerB : List Char := "**********b2**********".data

/-- A JSON document with all fields required by `LogEntry`, with
`correlationId` `"aa"`. -/
def jsonA : List Char :=
  "\x7b\"timestamp\":\"t\",\"logLevel\":\"INFO\",\"apiName\":\"X\",\"serviceName\":\"Y\",\"thread\":\"m\",\"logger\":\"l\",\"sessionId\":\"s\",\"correlationId\":\"aa\",\"type\":\"in\"\x7d".data

/-- The object `json.loads` produces for `jsonA`. -/
def objA : JObj :=
  [(kTimestamp, JVal.jstr ("t")), (kLogLevel, JVal.jstr ("INFO")),
   (kApiName, JVal.jstr ("X")), (kServiceName, JVal.jstr ("Y")),
   (kThread, JVal.jstr ("m")), (kLogger, JVal.jstr ("l")),
   (kSessionId, JVal.jstr ("s")), (kCorrelationId, JVal.jstr ("aa")),
   (kType, JVal.jstr ("in"))]

/-- The `json.loads` restricted to the one document used by the concrete
frames. -/
def jparseA : List Char → Option JObj :=
  fun cs => if cs = jsonA then some objA else none

/-- The first write of scenario S2: opening marker and JSON, but no
closing marker. -/
def partialFrameA : List Char := markerA ++ '\n' :: jsonA

/-- The file content after the closing marker (and a final newline) have
been appended. -/
def fullFrameA : List Char :=
  partialFrameA ++ '\n' :: markerA ++ [ '\n' ]

/-- Same JSON body as `jsonA` but with `correlationId` `"bb"`. -/
def jsonBodyB : List Char :=
  "\x7b\"timestamp\":\"t\",\"logLevel\":\"INFO\",\"apiName\":\"X\",\"serviceName\":\"Y\",\"thread\":\"m\",\"logger\":\"l\",\"sessionId\":\"s\",\"correlationId\":\"bb\",\"type\":\"in\"\x7d".data

/-- The object `json.loads` produces for `jsonBodyB`. -/
def objB : JObj :=
  [(kTimestamp, JVal.jstr ("t")), (kLogLevel, JVal.jstr ("INFO")),
   (kApiName, JVal.jstr ("X")), (kServiceName, JVal.jstr ("Y")),
   (kThread, JVal.jstr ("m")), (kLogger, JVal.jstr ("l")),
   (kSessionId, JVal.jstr ("s")), (kCorrelationId, JVal.jstr ("bb")),
   (kType, JVal.jstr ("in"))]

/-- The `json.loads` restricted to `jsonBodyB`. -/
def jparseB : List Char → Option JObj :=
  fun cs => if cs = jsonBodyB then some objB else none

/-- A frame whose markers carry cid `"aa"` while the JSON body carries
`correlationId` `"bb"`. -/
def rawMismatch : List Char := markerA ++ '\n' :: jsonBodyB ++ '\n' :: markerA

/-! ## C7 — rotation detection -/

/-- C7 counterexample: the file shrinks from position 8000 to 165 bytes of
content containing one complete frame.  The claim requires the position to
be reset to 0, a rotation event, and a re-parse of the content (processing
from offset 0 does emit one record).  The code instead reads nothing and
leaves the state untouched: the position stays 8000 and nothing is
re-parsed. -/
theorem c7_counterexample :
    process_file jparseA fullFrameA { pos := 8000, incomplete := none } =
      ({ pos := 8000, incomplete := none }, []) ∧
    (process_file jparseA fullFrameA { pos := 0, incomplete := none }).2.length
      = 1 ∧
    (8000 : Nat) ≠ 0 := by
  refine ⟨by decide, by decide, by decide⟩

/-- C7 (amended): `FileWatcher.process_file` contains no rotation
detection.  Whenever the file's size is at most the stored position (in
particular strictly less, the shrunken-file case), the read yields no
content and the pass is a no-op: the position keeps its stale value, no
event is emitted, no records are produced. -/
theorem c7_no_rotation_detection
    (jparse : List Char → Option JObj) (content : List Char) (st : WState)
    (h : content.length ≤ st.pos) :
    process_file jparse content st = (st, []) := by
  have hdrop : content.drop st.pos = [] := by
    simpa using List.drop_eq_nil_of_le h
  simp [process_file, hdrop]

/-- C7 witness: the amended no-op behaviour at the counterexample input. -/
theorem c7_no_rotation_detection_witness :
    process_file jparseA fullFrameA { pos := 8000, incomplete := none } =
      ({ pos := 8000, incomplete := none }, []) :=
  c7_no_rotation_detection jparseA fullFrameA
    { pos := 8000, incomplete := none } (by decide)

/-- Mapping a function that fixes every element of a list is the
identity. -/
theorem map_fix_eq_self {α : Type} (l : List α) (f : α → α)
    (h : ∀ x ∈ l, f x = x) : l.map f = l := by
  induction l with
  | nil => simp
  | cons a t ih =>
    simp only [List.map_cons]
    rw [h a (by simp), ih]
    intro x hx
    exact h x (by simp [hx])

/-! ## C5 — per-subscriber filter predicates -/

/-- C5 counterexample (scenario S5): subscriber A (connection 0) holds the
intended predicate `{api_name: "X"}` and subscriber B (connection 1) holds
`{log_level: "ERROR"}`; the record has `apiName "X"`, `logLevel "INFO"`.
The claim requires delivery to A only.  `broadcast_log` has no notion of a
per-subscriber predicate and delivers to both: connection 1 receives the
record. -/
theorem c5_counterexample :
    (broadcast_log (fun _ => true) (initWS [0, 1]) objA).2 = [0, 1] ∧
    1 ∈ (broadcast_log (fun _ => true) (initWS [0, 1]) objA).2 ∧
    jgetStr objA kLogLevel = some ("INFO") ∧
    jgetStr objA kApiName = some ("X") := by
  refine ⟨by decide, by decide, by decide, by decide⟩

/-- C5 (amended): there are no per-subscription predicates.
`WebSocketManager.broadcast_log` delivers every record to every active
connection whose send succeeds; the delivered set is exactly
`connections.filter sendOk`, independent of the record's contents (the
right-hand side does not mention the record). -/
theorem c5_no_subscriber_predicates
    (sendOk : Nat → Bool) (st : WSState) (rec : JObj) :
    (broadcast_log sendOk st rec).2 = st.connections.filter sendOk ∧
    (broadcast_log sendOk st rec).1.connections =
      st.connections.filter sendOk := by
  constructor <;> simp [broadcast_log, update_stats]

/-! ## C6 — idempotent ingestion (upsert by correlation id) -/

/-- C6 counterexample: replaying the same frame twice.  The cold-store
write is `db.add` + `commit` — a plain INSERT on a table whose only key is
the surrogate `id` — so two deliveries leave TWO rows with correlation id
`"aa"`, not one. -/
theorem c6_counterexample :
    countCid
      (insert_log (fun _ => some 0) 0
        (insert_log (fun _ => some 0) 0 [] objA) objA) "aa" = 2 ∧
    (2 : Nat) ≠ 1 := by
  refine ⟨by decide, by decide⟩

/-- Replaying a record `n` times against the cold store. -/
def replayInsert (fromiso : List Char → Option Int) (now : Int)
    (rec : JObj) (store : List DbRow) (n : Nat) : List DbRow :=
  (fun s => insert_log fromiso now s rec)^[n] store

/-- C6 (amended): the hot-tier write `set_log` IS idempotent by key
(overwriting the same key twice equals doing it once), but the cold-store
`insert_log` is a plain insert: replaying the same frame `n` times adds
`n` rows for its correlation id, so the cold store is NOT idempotent and
performs no upsert by `correlation_id`. -/
theorem c6_insert_not_upsert
    (fromiso : List Char → Option Int) (now : Int) (rec : JObj)
    (store : List DbRow) (c : String) (n : Nat)
    (cache : List (String × JObj)) (cid : String) (v : JObj) :
    countCid (replayInsert fromiso now rec store n) c =
      countCid store c +
        n * (if jgetStr rec kCorrelationId == some c then 1 else 0) ∧
    set_log (set_log cache cid v) cid v = set_log cache cid v := by
  constructor
  · induction n with
    | zero => simp [replayInsert]
    | succ m ih =>
      have hstep :
          replayInsert fromiso now rec store (m + 1) =
            insert_log fromiso now (replayInsert fromiso now rec store m)
              rec := by
        simp [replayInsert, Function.iterate_succ_apply']
      rw [hstep]
      have hone : ∀ s : List DbRow,
          countCid (insert_log fromiso now s rec) c =
            countCid s c +
              (if jgetStr rec kCorrelationId == some c then 1 else 0) := by
        intro s
        simp only [countCid, insert_log, List.filter_append,
          List.length_append]
        congr 1
        by_cases h : jgetStr rec kCorrelationId == some c <;>
          simp [List.filter, h]
      rw [hone, ih]
      ring
  · by_cases h : (cache.find? (fun p => p.1 == cid)).isSome
    · have hmem : ∃ p ∈ cache, p.1 = cid := by
        rcases List.find?_isSome.mp h with ⟨p, hp, hpc⟩
        exact ⟨p, hp, by simpa using hpc⟩
      have h1 : set_log cache cid v =
          cache.map (fun p => if p.1 = cid then (cid, v) else p) := by
        simp [set_log, h]
      have h2 : ((cache.map
          (fun p => if p.1 = cid then (cid, v) else p)).find?
            (fun p => p.1 == cid)).isSome := by
        rcases hmem with ⟨p, hp, hpc⟩
        apply List.find?_isSome.mpr
        refine ⟨(cid, v), ?_, by simp⟩
        exact List.mem_map.mpr ⟨p, hp, by simp [hpc]⟩
      rw [h1]
      simp only [set_log, h2, if_pos, List.map_map]
      apply List.map_congr_left
      intro p _
      by_cases hpc : p.1 = cid <;> simp [Function.comp, hpc]
    · have hnone : cache.find? (fun p => p.1 == cid) = none := by
        cases hh : cache.find? (fun p => p.1 == cid) with
        | none => rfl
        | some p => rw [hh] at h; simp at h
      have hforall : ∀ p ∈ cache, ¬(p.1 = cid) := by
        intro p hp
        have := List.find?_eq_none.mp hnone p hp
        simpa using this
      have h1 : set_log cache cid v = cache ++ [(cid, v)] := by
        simp [set_log, h]
      have h2 : ((cache ++ [(cid, v)]).find?
          (fun p => p.1 == cid)).isSome := by
        apply List.find?_isSome.mpr
        exact ⟨(cid, v), by simp, by simp⟩
      rw [h1]
      simp only [set_log, h2, if_pos, List.map_append]
      have h3 : cache.map (fun p => if p.1 = cid then (cid, v) else p) =
          cache := by
        apply map_fix_eq_self
        intro p hp
        simp [hforall p hp]
      simp [h3]

/-- C6 witness: the amended statement at `n = 2`, the counterexample
record, and a one-entry cache. -/
theorem c6_insert_not_upsert_witness :
    countCid (replayInsert (fun _ => some 0) 0 objA [] 2) "aa" =
      countCid [] "aa" +
        2 * (if jgetStr objA kCorrelationId == some ("aa") then 1 else 0) ∧
    set_log (set_log [] "aa" objA) "aa" objA = set_log [] "aa" objA :=
  c6_insert_not_upsert (fun _ => some 0) 0 objA [] "aa" 2 [] "aa" objA

/-! ## C4 — filter predicate soundness -/

/-- Membership through one guarded comprehension. -/
theorem mem_filterStage {α : Type} {cond : Bool} {p : α → Bool}
    {l : List α} {e : α} (h : e ∈ filterStage cond p l) :
    e ∈ l ∧ (cond = true → p e = true) := by
  by_cases hc : cond = true
  · simp only [filterStage, hc, if_true] at h
    exact ⟨(List.mem_filter.mp h).1, fun _ => (List.mem_filter.mp h).2⟩
  · rw [filterStage, if_neg hc] at h
    exact ⟨h, fun hcc => absurd hcc hc⟩

/-- Membership through one date-guarded comprehension. -/
theorem mem_filterStageOpt {α : Type} {o : Option Int}
    {p : Int → α → Bool} {l : List α} {e : α}
    (h : e ∈ filterStageOpt o p l) :
    e ∈ l ∧ ∀ d, o = some d → p d e = true := by
  cases ho : o with
  | none =>
    rw [ho] at h
    exact ⟨h, by simp⟩
  | some d =>
    rw [ho] at h
    simp only [filterStageOpt] at h
    refine ⟨(List.mem_filter.mp h).1, ?_⟩
    intro d2 hd2
    obtain rfl : d = d2 := by injection hd2
    exact (List.mem_filter.mp h).2

/-- Members of a stable insertion come from the inserted element or the
list. -/
theorem mem_insDescC {key : CRec → String} {r a : CRec} :
    ∀ {l : List CRec}, a ∈ insDescC key r l → a = r ∨ a ∈ l := by
  intro l
  induction l with
  | nil => intro h; simpa [insDescC] using h
  | cons x xs ih =>
    intro h
    by_cases hc : pyStrLt (key r) (key x) = true
    · simp only [insDescC, if_pos hc] at h
      rcases List.mem_cons.mp h with h | h
      · exact Or.inr (by simp [h])
      · rcases ih h with h2 | h2
        · exact Or.inl h2
        · exact Or.inr (by simp [h2])
    · simp only [insDescC, if_neg hc] at h
      rcases List.mem_cons.mp h with h | h
      · exact Or.inl h
      · exact Or.inr h

/-- Members of the Python stable sort come from the input list. -/
theorem mem_pySortDescC {key : CRec → String} {a : CRec} :
    ∀ {l : List CRec}, a ∈ pySortDescC key l → a ∈ l := by
  intro l
  induction l with
  | nil => intro h; simp [pySortDescC] at h
  | cons x xs ih =>
    intro h
    have h2 : a ∈ insDescC key x (pySortDescC key xs) := h
    rcases mem_insDescC h2 with h3 | h3
    · simp [h3]
    · exact List.mem_cons_of_mem _ (ih h3)

/-- Members of the `search_logs` collection loop either come from the
accumulator or satisfy the match predicate. -/
theorem mem_searchCollect {p : CRec → Bool} {limit : Nat} {r : CRec} :
    ∀ {l acc : List CRec}, r ∈ searchCollect p limit l acc →
      r ∈ acc ∨ p r = true := by
  intro l
  induction l with
  | nil =>
    intro acc h
    exact Or.inl (by simpa [searchCollect] using h)
  | cons x xs ih =>
    intro acc h
    simp only [searchCollect] at h
    by_cases hx : p x = true
    · rw [if_pos hx] at h
      by_cases hlim : limit ≤ (acc ++ [x]).length
      · rw [if_pos hlim] at h
        rcases List.mem_append.mp h with h2 | h2
        · exact Or.inl h2
        · exact Or.inr ((List.mem_singleton.mp h2) ▸ hx)
      · rw [if_neg hlim] at h
        rcases ih h with h2 | h2
        · rcases List.mem_append.mp h2 with h3 | h3
          · exact Or.inl h3
          · exact Or.inr ((List.mem_singleton.mp h3) ▸ hx)
        · exact Or.inr h2
    · rw [if_neg hx] at h
      by_cases hlim : limit ≤ acc.length
      · rw [if_pos hlim] at h
        exact Or.inl h
      · rw [if_neg hlim] at h
        exact ih h

/-- C4 counterexample: a file-tier record with `logLevel "INFO"` passes a
filter requesting `logLevel "ERROR"` unchanged — the log-level predicate
is simply never applied by `_apply_filter_to_entries`. -/
theorem c4_counterexample :
    apply_filter_to_entries (fun _ => some 0) 0
        { logLevel := some ("ERROR") }
        [{ correlationId := "aa", timestamp := "t", apiName := "X",
           serviceName := "Y", sessionId := "s", logLevel := "INFO",
           hasError := none, durationMs := none }] =
      [{ correlationId := "aa", timestamp := "t", apiName := "X",
         serviceName := "Y", sessionId := "s", logLevel := "INFO",
         hasError := none, durationMs := none }] ∧
    ("INFO" : String) ≠ "ERROR" := by
  refine ⟨by decide, by decide⟩

/-- C4 (amended): every record returned from the file tier satisfies the
equality predicates on `correlationId`, `apiName`, `serviceName`,
`sessionId` and `hasError` and lies in the `[startDate, endDate]` range
(under the engine's own timestamp parsing); the `logLevel` predicate is
NOT applied on this path.  The cache search path (`search_logs`) does
apply its four predicates, including `logLevel`. -/
theorem c4_filter_predicates
    (fromiso : List Char → Option Int) (now : Int) (f : LogFilter)
    (entries : List FileRec) (e : FileRec)
    (h : e ∈ apply_filter_to_entries fromiso now f entries)
    (api serv lvl sess : Option String) (lim : Nat) (logs : List CRec)
    (r : CRec) (hr : r ∈ search_logs api serv lvl sess lim logs) :
    (pyTruthyOpt f.correlationId = true →
      some e.correlationId = f.correlationId) ∧
    (pyTruthyOpt f.apiName = true → some e.apiName = f.apiName) ∧
    (pyTruthyOpt f.serviceName = true → some e.serviceName = f.serviceName) ∧
    (pyTruthyOpt f.sessionId = true → some e.sessionId = f.sessionId) ∧
    (pyTruthyOpt f.hasError = true → e.hasError = f.hasError) ∧
    (∀ d, f.startDate = some d →
      d ≤ parse_timestamp fromiso now e.timestamp) ∧
    (∀ d, f.endDate = some d →
      parse_timestamp fromiso now e.timestamp ≤ d) ∧
    (pyTruthyOpt api = true → r.apiName = api) ∧
    (pyTruthyOpt serv = true → r.serviceName = serv) ∧
    (pyTruthyOpt lvl = true → r.logLevel = lvl) ∧
    (pyTruthyOpt sess = true → r.sessionId = sess) := by
  simp only [apply_filter_to_entries] at h
  obtain ⟨h6, hEnd⟩ := mem_filterStageOpt h
  obtain ⟨h5, hStart⟩ := mem_filterStageOpt h6
  obtain ⟨h4, hHasErr⟩ := mem_filterStage h5
  obtain ⟨h3, hSess⟩ := mem_filterStage h4
  obtain ⟨h2, hServ⟩ := mem_filterStage h3
  obtain ⟨h1, hApi⟩ := mem_filterStage h2
  obtain ⟨h0, hCid⟩ := mem_filterStage h1
  have hrp : searchMatch api serv lvl sess r = true := by
    have hr1 : r ∈ pySortDescC (fun x => x.timestamp.getD (""))
        (searchCollect (searchMatch api serv lvl sess) lim logs []) := by
      simp only [search_logs] at hr
      exact List.mem_of_mem_take hr
    rcases mem_searchCollect (mem_pySortDescC hr1) with h | h
    · simp at h
    · exact h
  have hm := hrp
  simp only [searchMatch, Bool.and_eq_true, Bool.or_eq_true,
    Bool.not_eq_eq_eq_not, Bool.not_true, beq_iff_eq] at hm
  obtain ⟨⟨⟨hmApi, hmServ⟩, hmLvl⟩, hmSess⟩ := hm
  refine ⟨?_, ?_, ?_, ?_, ?_, ?_, ?_, ?_, ?_, ?_, ?_⟩
  · intro hc; simpa using hCid hc
  · intro hc; simpa using hApi hc
  · intro hc; simpa using hServ hc
  · intro hc; simpa using hSess hc
  · intro hc; simpa using hHasErr hc
  · intro d hd; simpa using hStart d hd
  · intro d hd; simpa using hEnd d hd
  · intro hc
    rcases hmApi with h | h
    · rw [h] at hc; simp at hc
    · exact h
  · intro hc
    rcases hmServ with h | h
    · rw [h] at hc; simp at hc
    · exact h
  · intro hc
    rcases hmLvl with h | h
    · rw [h] at hc; simp at hc
    · exact h
  · intro hc
    rcases hmSess with h | h
    · rw [h] at hc; simp at hc
    · exact h

/-- C4 witness: a record passing a filter with all supported predicates
set, and a cache record found by an `apiName`/`logLevel` search. -/
theorem c4_filter_predicates_witness :
    ((pyTruthyOpt (some ("aa")) = true → some ("aa") = some ("aa")) ∧
     (pyTruthyOpt (some ("X")) = true → some ("X") = some ("X")) ∧
     (pyTruthyOpt (some ("Y")) = true → some ("Y") = some ("Y")) ∧
     (pyTruthyOpt (some ("s")) = true → some ("s") = some ("s")) ∧
     (pyTruthyOpt (some ("True")) = true →
       some ("True") = some ("True")) ∧
     (∀ d, (some 5 : Option Int) = some d →
       d ≤ parse_timestamp (fun _ => some 7) 0 ("t")) ∧
     (∀ d, (some 9 : Option Int) = some d →
       parse_timestamp (fun _ => some 7) 0 ("t") ≤ d) ∧
     (pyTruthyOpt (some ("X")) = true →
       (some ("X") : Option String) = some ("X")) ∧
     (pyTruthyOpt none = true → (none : Option String) = none) ∧
     (pyTruthyOpt (some ("INFO")) = true →
       (some ("INFO") : Option String) = some ("INFO")) ∧
     (pyTruthyOpt none = true → (none : Option String) = none)) :=
  c4_filter_predicates (fun _ => some 7) 0
    { correlationId := some ("aa"), apiName := some ("X"),
      serviceName := some ("Y"), sessionId := some ("s"),
      hasError := some ("True"), logLevel := some ("ERROR"),
      startDate := some 5, endDate := some 9 }
    [{ correlationId := "aa", timestamp := "t", apiName := "X",
       serviceName := "Y", sessionId := "s", logLevel := "INFO",
       hasError := some ("True"), durationMs := none }]
    { correlationId := "aa", timestamp := "t", apiName := "X",
      serviceName := "Y", sessionId := "s", logLevel := "INFO",
      hasError := some ("True"), durationMs := none }
    (by decide)
    (some ("X")) none (some ("INFO")) none 10
    [{ apiName := some ("X"), serviceName := none,
       logLevel := some ("INFO"), sessionId := none,
       timestamp := some ("t") }]
    { apiName := some ("X"), serviceName := none,
      logLevel := some ("INFO"), sessionId := none,
      timestamp := some ("t") }
    (by decide)

/-! ## C8 — marker cid vs JSON body cid -/

/-- C8 counterexample: a complete frame whose markers carry cid `"aa"`
while the enclosed JSON carries `correlationId "bb"`.  The claim requires
the emitted record's correlation id to be the marker cid `"aa"`; the code
keeps the body's `"bb"`. -/
theorem c8_counterexample :
    parse_log_entry jparseB rawMismatch = some objB ∧
    jget objB kCorrelationId = some (JVal.jstr ("bb")) ∧
    extract_correlation_id markerA = some ("aa".data) ∧
    ("bb" : String) ≠ "aa" := by
  refine ⟨by decide, by decide, by decide, by decide⟩

/-- C8 (amended): when the JSON body of a frame carries a truthy
`correlationId`, `parse_log_entry` returns the body object UNCHANGED — the
body's correlation id is authoritative, whatever cid the markers carry;
the marker cid is written into the object only when the body's value is
missing or falsy. -/
theorem c8_body_cid_kept
    (jparse : List Char → Option JObj) (raw : List Char)
    (first : List Char) (rest : List (List Char)) (cid : List Char)
    (obj : JObj)
    (hlines : splitNl (pyStrip raw) = first :: rest)
    (hcid : extract_correlation_id first = some cid)
    (hjson : (collectJson (first :: rest) false).isEmpty = false)
    (hparse : jparse
      (List.intercalate [ '\n' ] (collectJson (first :: rest) false)) =
        some obj)
    (htruthy : jtruthy (jget obj kCorrelationId) = true)
    (hvalid : validLogEntry obj = true) :
    parse_log_entry jparse raw = some obj := by
  simp only [parse_log_entry, hlines, hcid, hjson, hparse, htruthy,
    hvalid, Bool.false_eq_true, if_false, if_true]

/-- C8 witness: the amended behaviour on the concrete mismatched frame. -/
theorem c8_body_cid_kept_witness :
    parse_log_entry jparseB rawMismatch = some objB :=
  c8_body_cid_kept jparseB rawMismatch
    markerA [jsonBodyB, markerA] ("aa".data) objB
    (by decide) (by decide) (by decide) (by decide) (by decide) (by decide)

/-! ## C9 — duration averages and zero denominators -/

/-- The all-zero analytics of an empty database tier. -/
def dbEmptyAnalytics : Analytics :=
  { totalLogs := 0, errorCount := 0, successCount := 0,
    avgDurationMs := 0, apiBreakdown := [], serviceBreakdown := [],
    errorBreakdown := [] }

/-- A file-tier record with a 100 ms duration. -/
def fileRec100 : FileRec :=
  { correlationId := "aa", timestamp := "t", apiName := "X",
    serviceName := "Y", sessionId := "s", logLevel := "INFO",
    hasError := none, durationMs := some 100 }

/-- C9 counterexample: the database tier is empty (0 records, average 0)
and the file tier holds two records of 100 ms each.  Every record of the
merged overview with a non-null duration has duration 100, so the claimed
average over merged records is 100; the code returns
`round((0 + 100)/2, 2) = 50`. -/
theorem c9_counterexample :
    (merge_analytics dbEmptyAnalytics
      (get_file_analytics [fileRec100, fileRec100])).avgDurationMs = 50 ∧
    (get_file_analytics [fileRec100, fileRec100]).avgDurationMs = 100 ∧
    dbEmptyAnalytics.totalLogs = 0 ∧
    (50 : ℚ) ≠ 100 := by
  have hd : List.filterMap (fun e : FileRec => e.durationMs)
      [fileRec100, fileRec100] = [100, 100] := by decide
  have hfa : (get_file_analytics [fileRec100, fileRec100]).avgDurationMs
      = ((100 : ℤ) : ℚ) := by
    simp only [get_file_analytics, hd]
    apply pyRound2_eq_int
    norm_num [List.foldl]
  have hm : (merge_analytics dbEmptyAnalytics
      (get_file_analytics [fileRec100, fileRec100])).avgDurationMs
      = ((50 : ℤ) : ℚ) := by
    simp only [merge_analytics, dbEmptyAnalytics, hfa]
    apply pyRound2_eq_int
    norm_num
  refine ⟨by rw [hm]; norm_num, by rw [hfa]; norm_num, by decide,
    by norm_num⟩

/-- C9 (amended): per-tier duration averages do range over non-null
`durationMs` only and zero denominators do yield 0 — an entry list with no
durations has file-tier average 0, and the broadcast stats of an empty
cache have success rate 0 — but the MERGED overview average is
`round((db_avg + file_avg) / 2, 2)`, the unweighted mean of the two tier
averages, not an average over the merged records. -/
theorem c9_average_semantics
    (entries : List FileRec) (hnone : ∀ e ∈ entries, e.durationMs = none)
    (dbA fileA : Analytics) :
    (get_file_analytics entries).avgDurationMs = 0 ∧
    (broadcast_stats_calc []).2.2.2 = 0 ∧
    (merge_analytics dbA fileA).avgDurationMs =
      pyRound2 ((dbA.avgDurationMs + fileA.avgDurationMs) / 2) := by
  refine ⟨?_, ?_, rfl⟩
  · have hdur : entries.filterMap (fun e => e.durationMs) = [] :=
      List.filterMap_eq_nil_iff.mpr hnone
    simp only [get_file_analytics, hdur]
    simpa using pyRound2_zero
  · simp only [broadcast_stats_calc]
    simpa using pyRound2_zero

/-- C9 witness: the amended statement on a one-record list without
durations. -/
theorem c9_average_semantics_witness :
    (get_file_analytics
      [{ correlationId := "aa", timestamp := "t", apiName := "X",
         serviceName := "Y", sessionId := "s", logLevel := "INFO",
         hasError := none, durationMs := none }]).avgDurationMs = 0 ∧
    (broadcast_stats_calc []).2.2.2 = 0 ∧
    (merge_analytics dbEmptyAnalytics
        (get_file_analytics [fileRec100, fileRec100])).avgDurationMs =
      pyRound2 ((dbEmptyAnalytics.avgDurationMs +
        (get_file_analytics [fileRec100, fileRec100]).avgDurationMs) / 2) :=
  c9_average_semantics
    [{ correlationId := "aa", timestamp := "t", apiName := "X",
       serviceName := "Y", sessionId := "s", logLevel := "INFO",
       hasError := none, durationMs := none }]
    (by decide) dbEmptyAnalytics (get_file_analytics [fileRec100, fileRec100])

/-! ## C2 — position advancement and the incomplete-frame carry -/

/-- C2 counterexample (scenario S2, first half): the pass reads an
opening marker plus JSON with no closing marker.  The claim requires zero
records (which holds) AND the stored position unchanged at its prior value
0 (consumed_bytes = 0).  The code emits zero records but advances the
position to 165, the full length read. -/
theorem c2_counterexample :
    (process_file jparseA partialFrameA
      { pos := 0, incomplete := none }).2 = [] ∧
    (process_file jparseA partialFrameA
      { pos := 0, incomplete := none }).1.pos = 165 ∧
    partialFrameA.length = 165 ∧ (165 : Nat) ≠ 0 := by
  refine ⟨by decide, by decide, by decide, by decide⟩

/-- C2 (amended): whenever a pass reads any new content, the stored
position advances to the END of the read (the file length), never to a
consumed-frame boundary; the incomplete trailing entry is retried via the
in-memory `incomplete_logs` buffer instead.  On scenario S2 this still
yields the observable record counts the spec expects: the first pass
(marker + JSON, no closing marker) emits zero records and buffers the
partial entry, and the pass after the closing marker arrives emits exactly
one record. -/
theorem c2_position_and_carry
    (jparse : List Char → Option JObj) (content : List Char) (st : WState)
    (h : st.pos < content.length) :
    (process_file jparse content st).1.pos = content.length ∧
    process_file jparseA partialFrameA { pos := 0, incomplete := none } =
      ({ pos := partialFrameA.length, incomplete := some partialFrameA },
        []) ∧
    process_file jparseA fullFrameA
        { pos := partialFrameA.length, incomplete := some partialFrameA } =
      ({ pos := fullFrameA.length, incomplete := none }, [objA]) := by
  refine ⟨?_, by decide, by decide⟩
  have hlen : (content.drop st.pos).length = content.length - st.pos :=
    List.length_drop _ _
  have hne : (content.drop st.pos).isEmpty = false := by
    cases hd : content.drop st.pos with
    | nil =>
      rw [hd] at hlen
      simp only [List.length_nil] at hlen
      omega
    | cons a t => simp
  simp [process_file, hne]

/-- C2 witness: the amended statement applied to the first S2 pass. -/
theorem c2_position_and_carry_witness :
    (process_file jparseA partialFrameA
      { pos := 0, incomplete := none }).1.pos = partialFrameA.length ∧
    process_file jparseA partialFrameA { pos := 0, incomplete := none } =
      ({ pos := partialFrameA.length, incomplete := some partialFrameA },
        []) ∧
    process_file jparseA fullFrameA
        { pos := partialFrameA.length, incomplete := some partialFrameA } =
      ({ pos := fullFrameA.length, incomplete := none }, [objA]) :=
  c2_position_and_carry jparseA partialFrameA
    { pos := 0, incomplete := none } (by decide)

/-! ## C10 — broadcaster stats invariant -/

/-- Stats bookkeeping of a broadcast sequence: totals and per-class counts
accumulate exactly, independent of delivery outcomes. -/
theorem runBroadcasts_stats (sendOk : Nat → Bool) :
    ∀ (recs : List JObj) (st : WSState),
      (runBroadcasts sendOk recs st).total = st.total + recs.length ∧
      (runBroadcasts sendOk recs st).error = st.error +
        (recs.filter (fun r => getLevel r == some ("ERROR"))).length ∧
      (runBroadcasts sendOk recs st).success = st.success +
        (recs.filter (fun r => !(getLevel r == some ("ERROR")))).length := by
  intro recs
  induction recs with
  | nil => intro st; simp [runBroadcasts]
  | cons r rest ih =>
    intro st
    have hstep : runBroadcasts sendOk (r :: rest) st =
        runBroadcasts sendOk rest ((broadcast_log sendOk st r).1) := rfl
    rw [hstep]
    obtain ⟨iht, ihe, ihs⟩ := ih ((broadcast_log sendOk st r).1)
    rw [iht, ihe, ihs]
    by_cases hr : getLevel r == some ("ERROR")
    · refine ⟨?_, ?_, ?_⟩ <;>
        simp [broadcast_log, update_stats, hr, List.filter_cons] <;> omega
    · refine ⟨?_, ?_, ?_⟩ <;>
        simp [broadcast_log, update_stats, hr, List.filter_cons] <;> omega

/-- After at least one broadcast, the stored success rate is the rounded
percentage of the current counters. -/
theorem runBroadcasts_rate (sendOk : Nat → Bool) :
    ∀ (recs : List JObj) (st : WSState), recs ≠ [] →
      (runBroadcasts sendOk recs st).successRate =
        some (pyRound2
          (if (runBroadcasts sendOk recs st).total = 0 then 0
           else ((runBroadcasts sendOk recs st).success : ℚ) /
             ((runBroadcasts sendOk recs st).total : ℚ) * 100)) := by
  intro recs
  induction recs with
  | nil => intro st h; exact absurd rfl h
  | cons r rest ih =>
    intro st _
    by_cases hrest : rest = []
    · subst hrest
      have h2 : ¬(st.total + 1 = 0) := Nat.succ_ne_zero _
      simp [runBroadcasts, broadcast_log, update_stats, h2]
    · have hstep : runBroadcasts sendOk (r :: rest) st =
          runBroadcasts sendOk rest ((broadcast_log sendOk st r).1) := rfl
      rw [hstep]
      exact ih _ hrest

/-- Filtering a list by a predicate and by its negation partitions it. -/
theorem length_filter_bool_partition {α : Type} (p : α → Bool)
    (l : List α) :
    (l.filter p).length + (l.filter (fun a => !(p a))).length = l.length := by
  induction l with
  | nil => simp
  | cons a t ih =>
    by_cases ha : p a <;> simp [List.filter_cons, ha] <;> omega

/-- C10: from the initial state, any sequence of `broadcast_log` calls
keeps `total_logs = success_logs + error_logs`, counts a record as an
error exactly when its `logLevel` is `'ERROR'`, and (once at least one
record has been published — before that the `success_rate` key does not
exist yet, and `total_logs = 0` happens only then) stores
`success_rate = round(success/total*100, 2)` with the `0`-guard for a zero
total. -/
theorem c10_stats_invariant (sendOk : Nat → Bool) (conns : List Nat)
    (recs : List JObj) :
    (runBroadcasts sendOk recs (initWS conns)).total =
      (runBroadcasts sendOk recs (initWS conns)).success +
        (runBroadcasts sendOk recs (initWS conns)).error ∧
    (runBroadcasts sendOk recs (initWS conns)).error =
      (recs.filter (fun r => getLevel r == some ("ERROR"))).length ∧
    (runBroadcasts sendOk recs (initWS conns)).success =
      (recs.filter (fun r => !(getLevel r == some ("ERROR")))).length ∧
    (recs ≠ [] →
      (runBroadcasts sendOk recs (initWS conns)).successRate =
        some (pyRound2
          (if (runBroadcasts sendOk recs (initWS conns)).total = 0 then 0
           else ((runBroadcasts sendOk recs (initWS conns)).success : ℚ) /
             ((runBroadcasts sendOk recs (initWS conns)).total : ℚ) *
               100))) := by
  obtain ⟨ht, he, hs⟩ := runBroadcasts_stats sendOk recs (initWS conns)
  have hz1 : (initWS conns).total = 0 := rfl
  have hz2 : (initWS conns).error = 0 := rfl
  have hz3 : (initWS conns).success = 0 := rfl
  rw [hz1, Nat.zero_add] at ht
  rw [hz2, Nat.zero_add] at he
  rw [hz3, Nat.zero_add] at hs
  refine ⟨?_, he, hs, fun h => runBroadcasts_rate sendOk recs _ h⟩
  rw [ht, he, hs]
  have hp := length_filter_bool_partition
    (fun r => getLevel r == some ("ERROR")) recs
  omega

/-- C10 witness: the invariant after publishing the single record
`objA` (an INFO record) to one subscriber. -/
theorem c10_stats_invariant_witness :
    (runBroadcasts (fun _ => true) [objA] (initWS [0])).successRate =
      some (pyRound2
        (if (runBroadcasts (fun _ => true) [objA] (initWS [0])).total = 0
         then 0
         else ((runBroadcasts (fun _ => true) [objA]
             (initWS [0])).success : ℚ) /
           ((runBroadcasts (fun _ => true) [objA] (initWS [0])).total : ℚ) *
             100)) :=
  (c10_stats_invariant (fun _ => true) [0] [objA]).2.2.2 (by decide)

/-! ## C3 — marker pairing ignores the correlation id -/

/-- The exact on-disk marker line for a cid. -/
def mkMarker (cid : List Char) : List Char := stars10 ++ cid ++ stars10

/-- A cid usable in a marker: nonempty, all characters in `[a-f0-9-]`. -/
def validCid (cid : List Char) : Prop :=
  cid ≠ [] ∧ ∀ c ∈ cid, isCidChar c = true

/-- The `takeWhile` walks through a prefix whose elements all satisfy `p`. -/
theorem takeWhile_append_all {p : Char → Bool} :
    ∀ {l1 l2 : List Char}, (∀ c ∈ l1, p c = true) →
      (l1 ++ l2).takeWhile p = l1 ++ l2.takeWhile p := by
  intro l1
  induction l1 with
  | nil => intro l2 h; simp
  | cons c cs ih =>
    intro l2 h
    have hc : p c = true := h c (by simp)
    simp only [List.cons_append, List.takeWhile_cons, hc, if_true]
    rw [ih (fun d hd => h d (by simp [hd]))]

/-- The `dropWhile` drops a prefix whose elements all satisfy `p`. -/
theorem dropWhile_append_all {p : Char → Bool} :
    ∀ {l1 l2 : List Char}, (∀ c ∈ l1, p c = true) →
      (l1 ++ l2).dropWhile p = l2.dropWhile p := by
  intro l1
  induction l1 with
  | nil => intro l2 h; simp
  | cons c cs ih =>
    intro l2 h
    have hc : p c = true := h c (by simp)
    simp only [List.cons_append, List.dropWhile_cons, hc, if_true]
    exact ih (fun d hd => h d (by simp [hd]))

/-- The `takeWhile` stops at a failing head. -/
theorem takeWhile_cons_neg (p : Char → Bool) (c : Char) (l : List Char)
    (h : p c = false) : (c :: l).takeWhile p = [] := by
  simp [List.takeWhile_cons, h]

/-- The `dropWhile` keeps a list whose head fails. -/
theorem dropWhile_cons_neg (p : Char → Bool) (c : Char) (l : List Char)
    (h : p c = false) : (c :: l).dropWhile p = c :: l := by
  simp [List.dropWhile_cons, h]

/-- Every character of `stars10` is an asterisk. -/
theorem stars10_all_star : ∀ c ∈ stars10, (c == '*') = true := by decide

/-- A valid cid's head is not an asterisk. -/
theorem validCid_head_not_star {cid : List Char} (h : validCid cid) :
    ∃ c0 cs, cid = c0 :: cs ∧ (c0 == '*') = false ∧
      isCidChar c0 = true := by
  obtain ⟨hne, hall⟩ := h
  cases cid with
  | nil => exact absurd rfl hne
  | cons c0 cs =>
    refine ⟨c0, cs, rfl, ?_, hall c0 (by simp)⟩
    have hc : isCidChar c0 = true := hall c0 (by simp)
    by_cases hstar : c0 = '*'
    · rw [hstar] at hc
      exact absurd hc (by decide)
    · simp [hstar]


/-- The `matchCidAt` on a full marker returns the cid. -/
theorem matchCidAt_marker {cid : List Char} (h : validCid cid) :
    matchCidAt (mkMarker cid) = some cid := by
  obtain ⟨c0, cs, hcid, hc0, _⟩ := validCid_head_not_star h
  have htake : (mkMarker cid).takeWhile (fun c => c == '*') = stars10 := by
    rw [mkMarker, List.append_assoc,
      takeWhile_append_all stars10_all_star]
    rw [hcid]
    simp only [List.cons_append]
    rw [takeWhile_cons_neg (fun x => x == '*') c0 (cs ++ stars10) hc0,
      List.append_nil]
  have hdrop : (mkMarker cid).dropWhile (fun c => c == '*') =
      cid ++ stars10 := by
    rw [mkMarker, List.append_assoc,
      dropWhile_append_all stars10_all_star]
    rw [hcid]
    simp only [List.cons_append]
    exact dropWhile_cons_neg (fun x => x == '*') c0 (cs ++ stars10) hc0
  have htake2 : (cid ++ stars10).takeWhile isCidChar = cid := by
    rw [takeWhile_append_all h.2]
    have h0 : stars10.takeWhile isCidChar = [] := by decide
    rw [h0, List.append_nil]
  have hdrop2 : (cid ++ stars10).dropWhile isCidChar = stars10 := by
    rw [dropWhile_append_all h.2]
    decide
  rw [matchCidAt]
  simp only [htake, hdrop, htake2, hdrop2]
  have hs10 : stars10.isEmpty = false := by decide
  have hcne : cid.isEmpty = false := by
    rw [hcid]; simp
  rw [show stars10 = '*' :: List.replicate 9 '*' from by decide]
  simp [hs10, hcne]

/-- The `extract_correlation_id` on a full marker returns the cid. -/
theorem extract_marker {cid : List Char} (h : validCid cid) :
    extract_correlation_id (mkMarker cid) = some cid := by
  have hm := matchCidAt_marker h
  have hshape : mkMarker cid =
      '*' :: (List.replicate 9 '*' ++ (cid ++ stars10)) := by
    rw [mkMarker, show stars10 = '*' :: List.replicate 9 '*' from by decide]
    simp
  rw [hshape] at hm ⊢
  simp only [extract_correlation_id]
  rw [hm]

/-- The `matchDelim10` consumes a full marker and returns the remainder,
whatever follows. -/
theorem matchDelim10_marker {cid : List Char} (h : validCid cid)
    (rest : List Char) :
    matchDelim10 (mkMarker cid ++ rest) = some rest := by
  have hassoc : mkMarker cid ++ rest =
      stars10 ++ (cid ++ (stars10 ++ rest)) := by
    rw [mkMarker]; simp
  have hs10len : (10 : Nat) = stars10.length := by decide
  have htake : (mkMarker cid ++ rest).take 10 = stars10 := by
    rw [hassoc, hs10len, List.take_left]
  have hdrop : (mkMarker cid ++ rest).drop 10 =
      cid ++ (stars10 ++ rest) := by
    rw [hassoc, hs10len, List.drop_left]
  have hstarcons : stars10 ++ rest =
      '*' :: (List.replicate 9 '*' ++ rest) := by
    rw [show stars10 = '*' :: List.replicate 9 '*' from by decide]
    simp
  have htw : (cid ++ (stars10 ++ rest)).takeWhile isCidChar = cid := by
    rw [takeWhile_append_all h.2, hstarcons,
      takeWhile_cons_neg isCidChar '*' (List.replicate 9 '*' ++ rest)
        (by decide), List.append_nil]
  have hdw : (cid ++ (stars10 ++ rest)).dropWhile isCidChar =
      stars10 ++ rest := by
    rw [dropWhile_append_all h.2, hstarcons,
      dropWhile_cons_neg isCidChar '*' (List.replicate 9 '*' ++ rest)
        (by decide)]
  have htake2 : (stars10 ++ rest).take 10 = stars10 := by
    rw [hs10len, List.take_left]
  have hdrop2 : (stars10 ++ rest).drop 10 = rest := by
    rw [hs10len, List.drop_left]
  have hcne : cid.isEmpty = false := by
    cases hc : cid with
    | nil => exact absurd hc h.1
    | cons a t => simp
  rw [matchDelim10]
  simp only [htake, hdrop, htw, hdw, htake2, hdrop2, hcne]
  simp

/-- A successful `matchDelim10` needs a nonempty input. -/
theorem matchDelim10_nil : matchDelim10 [] = none := by decide

/-- The `re.findall` scan finds at least one delimiter in `pre ++ suf`
when one starts exactly at `suf` (an earlier overlapping match only adds
to the count). -/
theorem countDelimsAux_ge_one :
    ∀ (pre : List Char) (fuel : Nat) (suf rest2 : List Char),
      matchDelim10 suf = some rest2 → pre.length + suf.length ≤ fuel →
        1 ≤ countDelimsAux fuel (pre ++ suf) := by
  intro pre
  induction pre with
  | nil =>
    intro fuel suf rest2 hm hlen
    cases suf with
    | nil => rw [matchDelim10_nil] at hm; exact absurd hm (by simp)
    | cons c cs =>
      cases fuel with
      | zero => simp at hlen
      | succ f =>
        simp only [List.nil_append, countDelimsAux]
        simp only [hm]
        omega
  | cons c pre2 ih =>
    intro fuel suf rest2 hm hlen
    cases fuel with
    | zero => simp at hlen
    | succ f =>
      simp only [List.cons_append, countDelimsAux]
      rcases hmatch : matchDelim10 (c :: (pre2 ++ suf)) with _ | r
      · simp only [hmatch]
        apply ih f suf rest2 hm
        simp only [List.length_cons] at hlen
        omega
      · simp only [hmatch]
        omega

/-- Two delimiters in `cs`: one at the head, one starting at `suf` inside
the remainder. -/
theorem countDelims_ge_two (cs rest pre suf rest2 : List Char)
    (h1 : matchDelim10 cs = some rest) (hdecomp : rest = pre ++ suf)
    (h2 : matchDelim10 suf = some rest2)
    (hlen : pre.length + suf.length + 1 ≤ cs.length) :
    2 ≤ countDelims cs := by
  cases cs with
  | nil => rw [matchDelim10_nil] at h1; exact absurd h1 (by simp)
  | cons c cs2 =>
    simp only [countDelims, List.length_cons, countDelimsAux]
    simp only [h1, hdecomp]
    have := countDelimsAux_ge_one pre cs2.length suf rest2 h2 (by
      simp only [List.length_cons] at hlen
      omega)
    omega

/-- The `split('\n')` peels off a newline-free prefix line. -/
theorem splitNl_append :
    ∀ (l : List Char), '\n' ∉ l → ∀ rest : List Char,
      splitNl (l ++ '\n' :: rest) = l :: splitNl rest := by
  intro l
  induction l with
  | nil => intro _ rest; simp [splitNl]
  | cons c l2 ih =>
    intro h rest
    have hc : ¬(c = '\n') := by
      intro hh
      exact h (by simp [hh])
    have ih2 := ih (fun hm => h (by simp [hm])) rest
    simp only [List.cons_append, splitNl, if_neg hc, List.append_eq]
    rw [ih2]

/-- The `split('\n')` of a newline-free string is that one line. -/
theorem splitNl_no_nl :
    ∀ (l : List Char), '\n' ∉ l → splitNl l = [l] := by
  intro l
  induction l with
  | nil => intro _; rfl
  | cons c l2 ih =>
    intro h
    have hc : ¬(c = '\n') := by
      intro hh
      exact h (by simp [hh])
    have ih2 := ih (fun hm => h (by simp [hm]))
    simp only [splitNl, if_neg hc]
    rw [ih2]

/-- Markers contain no newline. -/
theorem nl_not_mem_marker {cid : List Char} (h : validCid cid) :
    '\n' ∉ mkMarker cid := by
  intro hm
  rw [mkMarker] at hm
  rcases List.mem_append.mp hm with h1 | h1
  · rcases List.mem_append.mp h1 with h2 | h2
    · exact absurd (List.eq_of_mem_replicate h2) (by decide)
    · exact absurd (h.2 _ h2) (by decide)
  · exact absurd (List.eq_of_mem_replicate h1) (by decide)

/-- Anything starting with the ten-star run contains it. -/
theorem hasStars10_append (x : List Char) :
    hasStars10 (stars10 ++ x) = true := by
  have htake : (stars10 ++ x).take 10 = stars10 := by
    rw [show (10 : Nat) = stars10.length from by decide, List.take_left]
  have hcons : stars10 ++ x = '*' :: (List.replicate 9 '*' ++ x) := by
    rw [show stars10 = '*' :: List.replicate 9 '*' from by decide]
    simp
  rw [hcons] at htake ⊢
  rw [hasStars10, if_pos htake]

/-- A full marker line is a delimiter line for `_split_log_entries`. -/
theorem isDelimLine_marker {cid : List Char} (h : validCid cid) :
    isDelimLine (mkMarker cid) = true := by
  rw [isDelimLine]
  have h1 : hasStars10 (mkMarker cid) = true := by
    rw [mkMarker, List.append_assoc]
    exact hasStars10_append (cid ++ stars10)
  rw [h1, extract_marker h]
  rfl

/-- The split loop pairs ANY two delimiter lines around a body line into
one entry — the cids on the two delimiter lines are never compared. -/
theorem splitEntries_three (m1 b m2 : List Char)
    (h1 : isDelimLine m1 = true) (hb : isDelimLine b = false)
    (h2 : isDelimLine m2 = true) :
    splitEntriesAux [m1, b, m2] [] false = [[m1, b, m2]] := by
  simp [splitEntriesAux, h1, hb, h2]

/-- Joining three lines with newlines. -/
theorem intercalate_three (a b c : List Char) :
    List.intercalate [ '\n' ] [a, b, c] = a ++ ('\n' :: (b ++ ('\n' :: c))) := by
  simp [List.intercalate, List.intersperse]

/-- C3 counterexample: a region opened by a marker with cid `"aa"` is
closed by a marker with the different cid `"b2"`: the splitter pairs the
two lines into ONE entry and `is_log_complete` accepts it — two sentinel
markers carrying different correlation ids ARE paired as one frame. -/
theorem c3_counterexample :
    is_log_complete
      (markerA ++ ('\n' :: (jsonA ++ ('\n' :: markerB)))) = true ∧
    split_log_entries
        (markerA ++ ('\n' :: (jsonA ++ ('\n' :: markerB)))) =
      [markerA ++ ('\n' :: (jsonA ++ ('\n' :: markerB)))] ∧
    extract_correlation_id markerA = some ("aa".data) ∧
    extract_correlation_id markerB = some ("b2".data) ∧
    ("aa".data : List Char) ≠ "b2".data := by
  refine ⟨by decide, by decide, by decide, by decide, by decide⟩

/-- C3 (amended): marker pairing ignores the correlation id.  For ANY two
valid cids — equal or not — a region opened by the first marker line is
closed by the next delimiter line: the content splits into exactly one
entry holding both markers, and `is_log_complete` deems it complete
(it merely counts delimiters and never validates the enclosed JSON). -/
theorem c3_any_cids_pair (cid1 cid2 body : List Char)
    (h1 : validCid cid1) (h2 : validCid cid2)
    (hb1 : hasStars10 body = false) (hb2 : '\n' ∉ body) :
    split_log_entries
        (mkMarker cid1 ++ ('\n' :: (body ++ ('\n' :: mkMarker cid2)))) =
      [mkMarker cid1 ++ ('\n' :: (body ++ ('\n' :: mkMarker cid2)))] ∧
    is_log_complete
      (mkMarker cid1 ++ ('\n' :: (body ++ ('\n' :: mkMarker cid2)))) =
        true := by
  have hbd : isDelimLine body = false := by
    rw [isDelimLine, hb1]
    rfl
  constructor
  · have hsplit : splitNl
        (mkMarker cid1 ++ ('\n' :: (body ++ ('\n' :: mkMarker cid2)))) =
        [mkMarker cid1, body, mkMarker cid2] := by
      rw [splitNl_append (mkMarker cid1) (nl_not_mem_marker h1)]
      rw [splitNl_append body hb2]
      rw [splitNl_no_nl (mkMarker cid2) (nl_not_mem_marker h2)]
    rw [split_log_entries, hsplit]
    rw [splitEntries_three (mkMarker cid1) body (mkMarker cid2)
      (isDelimLine_marker h1) hbd (isDelimLine_marker h2)]
    rw [List.map_cons, List.map_nil, intercalate_three]
  · have hm1 : matchDelim10
        (mkMarker cid1 ++ ('\n' :: (body ++ ('\n' :: mkMarker cid2)))) =
        some ('\n' :: (body ++ ('\n' :: mkMarker cid2))) :=
      matchDelim10_marker h1 _
    have hm2 : matchDelim10 (mkMarker cid2) = some [] := by
      have h0 := matchDelim10_marker h2 ([] : List Char)
      rwa [List.append_nil] at h0
    have hdecomp : '\n' :: (body ++ ('\n' :: mkMarker cid2)) =
        ('\n' :: (body ++ [ '\n' ])) ++ mkMarker cid2 := by
      simp
    have hcount : 2 ≤ countDelims
        (mkMarker cid1 ++ ('\n' :: (body ++ ('\n' :: mkMarker cid2)))) := by
      apply countDelims_ge_two _ _ ('\n' :: (body ++ [ '\n' ]))
        (mkMarker cid2) [] hm1 hdecomp hm2
      simp [mkMarker, stars10]
      omega
    rw [is_log_complete]
    simpa using hcount

/-- C3 witness: the amended pairing behaviour at the concrete cids
`"aa"` and `"b2"` with the JSON body between them. -/
theorem c3_any_cids_pair_witness :
    split_log_entries
        (mkMarker ("aa".data) ++
          ('\n' :: (jsonA ++ ('\n' :: mkMarker ("b2".data))))) =
      [mkMarker ("aa".data) ++
        ('\n' :: (jsonA ++ ('\n' :: mkMarker ("b2".data))))] ∧
    is_log_complete
      (mkMarker ("aa".data) ++
        ('\n' :: (jsonA ++ ('\n' :: mkMarker ("b2".data))))) = true :=
  c3_any_cids_pair ("aa".data) ("b2".data) jsonA
    (by constructor <;> decide) (by constructor <;> decide)
    (by decide) (by decide)

/-! ## C1 — merge, deduplication, ordering, pagination -/

/-- The deduplication loop only keeps elements of its input, in order. -/
theorem dedupAux_sublist :
    ∀ (l : List QRec) (seen : List String),
      List.Sublist (dedupAux l seen) l := by
  intro l
  induction l with
  | nil => intro seen; simp [dedupAux]
  | cons r rest ih =>
    intro seen
    by_cases hs : dedupKey r ∈ seen
    · rw [dedupAux, if_pos hs]
      exact (ih seen).cons r
    · rw [dedupAux, if_neg hs]
      exact (ih _).cons₂ r

/-- The deduplication loop emits pairwise-distinct keys, none of which
was already seen. -/
theorem dedupAux_keys :
    ∀ (l : List QRec) (seen : List String),
      ((dedupAux l seen).map dedupKey).Nodup ∧
      ∀ k ∈ (dedupAux l seen).map dedupKey, k ∉ seen := by
  intro l
  induction l with
  | nil => intro seen; simp [dedupAux]
  | cons r rest ih =>
    intro seen
    by_cases hs : dedupKey r ∈ seen
    · rw [dedupAux, if_pos hs]
      exact ih seen
    · rw [dedupAux, if_neg hs]
      obtain ⟨ihn, ihd⟩ := ih (dedupKey r :: seen)
      constructor
      · rw [List.map_cons, List.nodup_cons]
        refine ⟨?_, ihn⟩
        intro hmem
        exact (ihd _ hmem) (by simp)
      · intro k hk
        rw [List.map_cons] at hk
        rcases List.mem_cons.mp hk with hk2 | hk2
        · rw [hk2]; exact hs
        · intro hkseen
          exact (ihd _ hk2) (by simp [hkseen])

/-- Every input key is represented in the output (or was already seen). -/
theorem dedupAux_complete :
    ∀ (l : List QRec) (seen : List String) (r : QRec), r ∈ l →
      dedupKey r ∈ seen ∨
        ∃ s, s ∈ dedupAux l seen ∧ dedupKey s = dedupKey r := by
  intro l
  induction l with
  | nil => intro seen r h; simp at h
  | cons x rest ih =>
    intro seen r hr
    by_cases hs : dedupKey x ∈ seen
    · rw [dedupAux, if_pos hs]
      rcases List.mem_cons.mp hr with h | h
      · exact Or.inl (h ▸ hs)
      · exact ih seen r h
    · rw [dedupAux, if_neg hs]
      rcases List.mem_cons.mp hr with h | h
      · exact Or.inr ⟨x, by simp, by rw [h]⟩
      · rcases ih (dedupKey x :: seen) r h with h2 | h2
        · rcases List.mem_cons.mp h2 with h3 | h3
          · exact Or.inr ⟨x, by simp, h3.symm⟩
          · exact Or.inl h3
        · obtain ⟨s, hs1, hs2⟩ := h2
          exact Or.inr ⟨s, by simp [hs1], hs2⟩

/-- A key occurring in the first (hot) tier is represented by a hot
element: deduplication keeps first occurrences, and hot entries come
first. -/
theorem dedupAux_first_tier :
    ∀ (l1 : List QRec) (seen : List String) (r : QRec), r ∈ l1 →
      dedupKey r ∉ seen → ∀ l2 : List QRec,
        ∃ s, s ∈ dedupAux (l1 ++ l2) seen ∧ s ∈ l1 ∧
          dedupKey s = dedupKey r := by
  intro l1
  induction l1 with
  | nil => intro seen r h; simp at h
  | cons x rest ih =>
    intro seen r hr hseen l2
    by_cases hs : dedupKey x ∈ seen
    · rcases List.mem_cons.mp hr with h | h
      · exact absurd (h ▸ hs) hseen
      · rw [List.cons_append, dedupAux, if_pos hs]
        obtain ⟨s, h1, h2, h3⟩ := ih seen r h hseen l2
        exact ⟨s, h1, by simp [h2], h3⟩
    · rw [List.cons_append, dedupAux, if_neg hs]
      by_cases hk : dedupKey r = dedupKey x
      · exact ⟨x, by simp, by simp, hk.symm⟩
      · have h : r ∈ rest := by
          rcases List.mem_cons.mp hr with h | h
          · exact absurd (by rw [h]) hk
          · exact h
        have hseen2 : dedupKey r ∉ dedupKey x :: seen := by
          intro hmem
          rcases List.mem_cons.mp hmem with h2 | h2
          · exact hk h2
          · exact hseen h2
        obtain ⟨s, h1, h2, h3⟩ := ih (dedupKey x :: seen) r h hseen2 l2
        exact ⟨s, by simp [h1], by simp [h2], h3⟩

/-- Members of the stable insertion. -/
theorem mem_insDesc {key : QRec → String} {r a : QRec} :
    ∀ {l : List QRec}, a ∈ insDesc key r l → a = r ∨ a ∈ l := by
  intro l
  induction l with
  | nil => intro h; simpa [insDesc] using h
  | cons x xs ih =>
    intro h
    by_cases hc : pyStrLt (key r) (key x) = true
    · simp only [insDesc, if_pos hc] at h
      rcases List.mem_cons.mp h with h | h
      · exact Or.inr (by simp [h])
      · rcases ih h with h2 | h2
        · exact Or.inl h2
        · exact Or.inr (by simp [h2])
    · simp only [insDesc, if_neg hc] at h
      rcases List.mem_cons.mp h with h | h
      · exact Or.inl h
      · exact Or.inr h

/-- Stable insertion is a permutation of consing. -/
theorem insDesc_perm (key : QRec → String) (r : QRec) :
    ∀ (l : List QRec), List.Perm (insDesc key r l) (r :: l) := by
  intro l
  induction l with
  | nil => simp [insDesc]
  | cons x xs ih =>
    by_cases hc : pyStrLt (key r) (key x) = true
    · rw [insDesc, if_pos hc]
      exact (ih.cons x).trans (List.Perm.swap r x xs)
    · rw [insDesc, if_neg hc]

/-- The Python stable sort permutes its input. -/
theorem pySortDesc_perm (key : QRec → String) :
    ∀ (l : List QRec), List.Perm (pySortDesc key l) l := by
  intro l
  induction l with
  | nil => simp [pySortDesc]
  | cons x xs ih =>
    have h : pySortDesc key (x :: xs) =
        insDesc key x (pySortDesc key xs) := rfl
    rw [h]
    exact (insDesc_perm key x (pySortDesc key xs)).trans (ih.cons x)

/-- Unfolding `pyCharLt` at `true`. -/
theorem pyCharLt_true_iff {a b : Char} :
    pyCharLt a b = true ↔ a.toNat < b.toNat := by
  simp [pyCharLt]

/-- Unfolding `pyCharLt` at `false`. -/
theorem pyCharLt_false_iff {a b : Char} :
    pyCharLt a b = false ↔ b.toNat ≤ a.toNat := by
  simp [pyCharLt, Nat.not_lt]

/-- The Python order is asymmetric. -/
theorem pyStrLtL_asymm :
    ∀ (a b : List Char), pyStrLtL a b = true → pyStrLtL b a = false := by
  intro a
  induction a with
  | nil =>
    intro b h
    cases b with
    | nil => simp [pyStrLtL] at h
    | cons c cs => simp [pyStrLtL]
  | cons x xs ih =>
    intro b h
    cases b with
    | nil => simp [pyStrLtL] at h
    | cons y ys =>
      simp only [pyStrLtL] at h ⊢
      by_cases hxy : pyCharLt x y = true
      · have hyx : pyCharLt y x = false := by
          rw [pyCharLt_true_iff] at hxy
          exact pyCharLt_false_iff.mpr (by omega)
        rw [hyx, hxy]
        simp
      · have hxy2 : pyCharLt x y = false := by simpa using hxy
        rw [hxy2] at h
        simp only [Bool.false_eq_true, if_false] at h
        by_cases hyx : pyCharLt y x = true
        · rw [hyx] at h
          simp at h
        · have hyx2 : pyCharLt y x = false := by simpa using hyx
          rw [hyx2] at h
          simp only [Bool.false_eq_true, if_false] at h
          rw [hyx2, hxy2]
          simp [ih ys h]

/-- Negative transitivity: "not less than" is transitive for the Python
order. -/
theorem pyStrLtL_negtrans :
    ∀ (a b c : List Char), pyStrLtL a b = false → pyStrLtL b c = false →
      pyStrLtL a c = false := by
  intro a
  induction a with
  | nil =>
    intro b c h1 h2
    cases b with
    | nil => exact h2
    | cons y ys => simp [pyStrLtL] at h1
  | cons x xs ih =>
    intro b c h1 h2
    cases c with
    | nil => rfl
    | cons z zs =>
      cases b with
      | nil => simp [pyStrLtL] at h2
      | cons y ys =>
        simp only [pyStrLtL] at h1 h2 ⊢
        have hxy2 : pyCharLt x y = false := by
          by_cases hxy : pyCharLt x y = true
          · rw [hxy] at h1
            simp at h1
          · simpa using hxy
        have hyz2 : pyCharLt y z = false := by
          by_cases hyz : pyCharLt y z = true
          · rw [hyz] at h2
            simp at h2
          · simpa using hyz
        have nxy : y.toNat ≤ x.toNat := pyCharLt_false_iff.mp hxy2
        have nyz : z.toNat ≤ y.toNat := pyCharLt_false_iff.mp hyz2
        have hxz : pyCharLt x z = false := pyCharLt_false_iff.mpr (by omega)
        rw [hxy2] at h1
        rw [hyz2] at h2
        simp only [Bool.false_eq_true, if_false] at h1 h2
        rw [hxz]
        simp only [Bool.false_eq_true, if_false]
        by_cases hzx : pyCharLt z x = true
        · rw [hzx]
          simp
        · have hzx2 : pyCharLt z x = false := by simpa using hzx
          have nzx : x.toNat ≤ z.toNat := pyCharLt_false_iff.mp hzx2
          have hyx : pyCharLt y x = false := pyCharLt_false_iff.mpr (by omega)
          have hzy : pyCharLt z y = false := pyCharLt_false_iff.mpr (by omega)
          rw [hzx2]
          simp only [Bool.false_eq_true, if_false]
          rw [hyx] at h1
          rw [hzy] at h2
          simp only [Bool.false_eq_true, if_false] at h1 h2
          exact ih ys zs h1 h2

/-- String-level asymmetry. -/
theorem pyStrLt_asymm {a b : String} (h : pyStrLt a b = true) :
    pyStrLt b a = false :=
  pyStrLtL_asymm a.data b.data h

/-- String-level negative transitivity. -/
theorem pyStrLt_negtrans {a b c : String} (h1 : pyStrLt a b = false)
    (h2 : pyStrLt b c = false) : pyStrLt a c = false :=
  pyStrLtL_negtrans a.data b.data c.data h1 h2

/-- Stable insertion preserves descending sortedness (`r` sorted before
`x` means `r` is not smaller than `x` in the Python order). -/
theorem insDesc_pairwise {key : QRec → String} {r : QRec} :
    ∀ {l : List QRec},
      List.Pairwise (fun a b => pyStrLt (key a) (key b) = false) l →
      List.Pairwise (fun a b => pyStrLt (key a) (key b) = false)
        (insDesc key r l) := by
  intro l
  induction l with
  | nil => intro _; simp [insDesc]
  | cons x xs ih =>
    intro h
    obtain ⟨hx, hxs⟩ := List.pairwise_cons.mp h
    by_cases hc : pyStrLt (key r) (key x) = true
    · rw [insDesc, if_pos hc]
      refine List.pairwise_cons.mpr ⟨?_, ih hxs⟩
      intro y hy
      rcases mem_insDesc hy with h2 | h2
      · rw [h2]
        exact pyStrLt_asymm hc
      · exact hx y h2
    · rw [insDesc, if_neg hc]
      have hrx : pyStrLt (key r) (key x) = false := by simpa using hc
      refine List.pairwise_cons.mpr ⟨?_, h⟩
      intro y hy
      rcases List.mem_cons.mp hy with h2 | h2
      · rw [h2]
        exact hrx
      · exact pyStrLt_negtrans hrx (hx y h2)

/-- The Python stable sort yields a descending list. -/
theorem pySortDesc_pairwise (key : QRec → String) :
    ∀ (l : List QRec),
      List.Pairwise (fun a b => pyStrLt (key a) (key b) = false)
        (pySortDesc key l) := by
  intro l
  induction l with
  | nil => simp [pySortDesc]
  | cons x xs ih => exact insDesc_pairwise ih

/-- Hot record with cid `"b"`. -/
def qB : QRec := { correlationId := "b", timestamp := "t1" }

/-- Cold record with cid `"a"`, same timestamp as `qB`. -/
def qA : QRec := { correlationId := "a", timestamp := "t1" }

/-- Hot record, cid `"a"`, the newer timestamp. -/
def qA2 : QRec := { correlationId := "a", timestamp := "t2" }

/-- Cold record, cid `"a"`, the older timestamp. -/
def qA1 : QRec := { correlationId := "a", timestamp := "t1" }

/-- C1 counterexample.  First input: the same correlation id appears in
both tiers with different timestamps — the spec's merge (dedup by cid
alone, hot preferred) reports total 1, the code's pipeline (dedup key
`cid ++ "_" ++ timestamp`) reports total 2.  Second input: two records
with equal timestamps and cids `"b"` (hot) and `"a"` (cold) — the spec
orders ties by cid ascending (`a` before `b`), the code keeps insertion
order (hot `b` first). -/
theorem c1_counterexample :
    (get_logs [qA2] [qA1] 1 50).2 = 2 ∧
    (specGetLogs [qA2] [qA1] 1 50).2 = 1 ∧
    (get_logs [qB] [qA] 1 50).1 = [qB, qA] ∧
    (specGetLogs [qB] [qA] 1 50).1 = [qA, qB] := by
  refine ⟨by decide, by decide, by decide, by decide⟩

/-- C1 (amended): for a query answered from both tiers, `get_logs`
deduplicates by the concatenated key `correlationId ++ "_" ++ timestamp`
(NOT by correlation id alone), keeping the first occurrence — hot/file
records precede cold/database records, so on a full-key duplicate the hot
entry is kept; the merged list is sorted by the `timestamp` string
descending with ties left in insertion order (no correlation-id
tiebreak); pagination is the slice `[(page-1)*pageSize, page*pageSize)`;
the reported total is the deduplicated count before pagination. -/
theorem c1_merge_pipeline (fileLogs dbLogs : List QRec)
    (page pageSize : Nat) (hpage : 1 ≤ page) :
    (get_logs fileLogs dbLogs page pageSize).2 =
      (deduplicate_logs (fileLogs ++ dbLogs)).length ∧
    (get_logs fileLogs dbLogs page pageSize).1 =
      ((pySortDesc (fun r => r.timestamp)
        (deduplicate_logs (fileLogs ++ dbLogs))).drop
          ((page - 1) * pageSize)).take pageSize ∧
    List.Sublist (deduplicate_logs (fileLogs ++ dbLogs))
      (fileLogs ++ dbLogs) ∧
    ((deduplicate_logs (fileLogs ++ dbLogs)).map dedupKey).Nodup ∧
    (∀ r ∈ fileLogs ++ dbLogs, ∃ s,
      s ∈ deduplicate_logs (fileLogs ++ dbLogs) ∧
        dedupKey s = dedupKey r) ∧
    (∀ r ∈ fileLogs, ∃ s,
      s ∈ deduplicate_logs (fileLogs ++ dbLogs) ∧ s ∈ fileLogs ∧
        dedupKey s = dedupKey r) ∧
    List.Pairwise (fun a b => pyStrLt a.timestamp b.timestamp = false)
      (pySortDesc (fun r => r.timestamp)
        (deduplicate_logs (fileLogs ++ dbLogs))) ∧
    List.Pairwise (fun a b => pyStrLt a.timestamp b.timestamp = false)
      (get_logs fileLogs dbLogs page pageSize).1 ∧
    (get_logs fileLogs dbLogs page pageSize).1.length ≤ pageSize := by
  have hperm := pySortDesc_perm (fun r => r.timestamp)
    (deduplicate_logs (fileLogs ++ dbLogs))
  have hpair := pySortDesc_pairwise (fun r => r.timestamp)
    (deduplicate_logs (fileLogs ++ dbLogs))
  have hfst : (get_logs fileLogs dbLogs page pageSize).1 =
      ((pySortDesc (fun r => r.timestamp)
        (deduplicate_logs (fileLogs ++ dbLogs))).drop
          ((page - 1) * pageSize)).take pageSize := rfl
  refine ⟨?_, hfst, dedupAux_sublist _ _, (dedupAux_keys _ _).1,
    ?_, ?_, hpair, ?_, ?_⟩
  · simp only [get_logs]
    exact hperm.length_eq
  · intro r hr
    rcases dedupAux_complete (fileLogs ++ dbLogs) [] r hr with h | h
    · simp at h
    · exact h
  · intro r hr
    obtain ⟨s, h1, h2, h3⟩ :=
      dedupAux_first_tier fileLogs [] r hr (by simp) dbLogs
    exact ⟨s, h1, h2, h3⟩
  · rw [hfst]
    exact hpair.sublist
      ((List.take_sublist _ _).trans (List.drop_sublist _ _))
  · rw [hfst]
    exact List.length_take_le _ _

/-- C1 witness: the amended pipeline properties at the concrete two-tier
input with the tied timestamps. -/
theorem c1_merge_pipeline_witness :
    (get_logs [qB] [qA] 1 50).2 =
      (deduplicate_logs ([qB] ++ [qA])).length ∧
    (get_logs [qB] [qA] 1 50).1 =
      ((pySortDesc (fun r => r.timestamp)
        (deduplicate_logs ([qB] ++ [qA]))).drop ((1 - 1) * 50)).take 50 ∧
    List.Sublist (deduplicate_logs ([qB] ++ [qA])) ([qB] ++ [qA]) ∧
    ((deduplicate_logs ([qB] ++ [qA])).map dedupKey).Nodup ∧
    (∀ r ∈ [qB] ++ [qA], ∃ s,
      s ∈ deduplicate_logs ([qB] ++ [qA]) ∧ dedupKey s = dedupKey r) ∧
    (∀ r ∈ [qB], ∃ s,
      s ∈ deduplicate_logs ([qB] ++ [qA]) ∧ s ∈ [qB] ∧
        dedupKey s = dedupKey r) ∧
    List.Pairwise (fun a b => pyStrLt a.timestamp b.timestamp = false)
      (pySortDesc (fun r => r.timestamp)
        (deduplicate_logs ([qB] ++ [qA]))) ∧
    List.Pairwise (fun a b => pyStrLt a.timestamp b.timestamp = false)
      (get_logs [qB] [qA] 1 50).1 ∧
    (get_logs [qB] [qA] 1 50).1.length ≤ 50 :=
  c1_merge_pipeline [qB] [qA] 1 50 (by decide)

end LogAnalyzer
